import Mathlib

/-!
Verification development for the resource-limit admission and observation
engine (ResourceController / ResourceObservation).

The Go sources are embedded shallowly:

* `resource.Quantity` is not part of the analysed sources, so it is modelled
  from the specification as an exact magnitude held in thousandths (the
  milli view); the integral-unit view rounds the milli view up to whole
  units for the nonnegative magnitudes that occur here.
* Go slices become `List`; a `nil` slice is `Option.none` where nil-ness is
  observable.
* Go maps of resource names (`api.ResourceList`) are mutable reference
  values shared between copied structs, so they are modelled as references
  (`Ref`) into an explicit `Heap`; copying a group struct copies the
  reference, exactly as in Go.  A nil map is `Option.none`: reads of a nil
  map yield nothing and writes to a nil map are a runtime fault (`crash`).
* Error values carry the same data the Go `fmt.Errorf` calls format.
-/

/-- Modelled from the spec: `resource.Quantity` (package `pkg/api/resource`
is not among the analysed sources).  The spec describes an opaque magnitude
with two projection views, value (integral units) and milli-value
(thousandths); the magnitude is stored exactly in thousandths. -/
structure Quantity where
  milli : Int
deriving DecidableEq, Repr

/-- Modelled from the spec: the milli-value view (thousandths). -/
def Quantity.milliValue (q : Quantity) : Int := q.milli

/-- Modelled from the spec: the integral-unit view; a milli magnitude is
rounded up to whole units (the store's quantity semantics for the
nonnegative magnitudes used by this engine). -/
def Quantity.value (q : Quantity) : Int := Int.ediv (q.milli + 999) 1000

/-- Modelled from the spec: construction from the integral view
(the binary/decimal scale tag does not affect either projection view). -/
def NewQuantity (n : Int) : Quantity := ⟨n * 1000⟩

/-- Modelled from the spec: construction from the milli view. -/
def NewMilliQuantity (m : Int) : Quantity := ⟨m⟩

/-- The zero value of a Go `resource.Quantity`. -/
def zeroQuantity : Quantity := ⟨0⟩

/-- `api.ResourceName` (open string domain). -/
abbrev ResourceName := String

/-- Modelled from the spec: the `api.ResourceControllerGroupBy` string
constants (`pkg/api/types.go` is not among the analysed sources; the spec
names the four scopes). -/
def ResourceControllerGroupByNamespace : String := "Namespace"

def ResourceControllerGroupByPod : String := "Pod"

def ResourceControllerGroupByContainer : String := "Container"

def ResourceControllerGroupByReplicationController : String := "ReplicationController"

/-- Modelled from the spec: the `api.ResourceControllerRuleType` constants. -/
def ResourceControllerRuleTypeMax : String := "Max"

def ResourceControllerRuleTypeMin : String := "Min"

/-- An `api.ResourceList` map, as stored content: an association list from
resource name to quantity (Go map iteration order is unspecified; theorems
proved here do not depend on the order fixed by the list). -/
abbrev ResourceList := List (ResourceName × Quantity)

/-- Map read: `rl[n]` with its `exists` flag collapsed into `Option`. -/
def ResourceList.getq : ResourceList → ResourceName → Option Quantity
  | [], _ => none
  | p :: rest, n => if p.1 = n then some p.2 else getq rest n

/-- Map write: `rl[n] = q`. -/
def ResourceList.setq (rl : ResourceList) (n : ResourceName) (q : Quantity) : ResourceList :=
  if rl.any (fun p => p.1 = n) then
    rl.map (fun p => if p.1 = n then (n, q) else p)
  else
    rl ++ [(n, q)]

/-- A reference to a shared mutable `api.ResourceList` map. -/
abbrev Ref := Nat

/-- The heap of live `api.ResourceList` maps; a group's `Resources` field
is an index into it. -/
abbrev Heap := List ResourceList

/-- Read through a possibly-nil map reference (reading a Go nil map yields
no entries). -/
def Heap.readRef (h : Heap) (r : Option Ref) : ResourceList :=
  match r with
  | none => []
  | some i => h.getD i []

/-- Write one entry of the map at cell `i`. -/
def Heap.writeCell (h : Heap) (i : Ref) (n : ResourceName) (q : Quantity) : Heap :=
  h.set i ((h.getD i []).setq n q)

/-- Write through a map reference; writing to a Go nil map is a runtime
fault, reported as `none`. -/
def Heap.writeRef (h : Heap) (r : Option Ref) (n : ResourceName) (q : Quantity) : Option Heap :=
  match r with
  | none => none
  | some i => some (h.writeCell i n q)

/-- `api.ResourceControllerGroup`: `{GroupBy, RuleType, Resources}`; the
`Resources` map is held by reference (`none` is a nil map). -/
structure ResourceControllerGroup where
  groupBy : String
  ruleType : String
  resources : Option Ref
deriving DecidableEq, Repr

/-- The zero value of `api.ResourceControllerGroup` (what `make` fills a
slice with): empty strings and a nil `Resources` map. -/
def zeroGroup : ResourceControllerGroup := ⟨"", "", none⟩

/-- `api.ResourceControllerStatus`: `{Allowed, Allocated}` slices; `none`
is a nil slice (nil-ness is observed by the reconciler's dirty seed). -/
structure ResourceControllerStatus where
  allowed : Option (List ResourceControllerGroup)
  allocated : Option (List ResourceControllerGroup)
deriving DecidableEq, Repr

/-- `api.ResourceController` (the fields the engine reads). -/
structure ResourceController where
  name : String
  namespaceName : String
  resourceVersion : String
  specAllowed : List ResourceControllerGroup
  status : ResourceControllerStatus
deriving DecidableEq, Repr

/-- `api.ResourceObservation` (the fields the engine writes). -/
structure ResourceObservation where
  name : String
  namespaceName : String
  resourceVersion : String
  status : ResourceControllerStatus
deriving DecidableEq, Repr

/-- One level of the `AllowedAndAllocated` projection: whether the outer
map has a key for a `GroupBy`, and the inner
`RuleType -> Resources` lookup.  `rules gb rt = none` covers both a missing
inner key and a group whose `Resources` map is nil: reads behave the same
(empty) and writes fault the same way. -/
structure GroupProjection where
  hasGroupBy : String → Bool
  rules : String → String → Option Ref

/-- Project one status group list; for each `(GroupBy, RuleType)` the last
group in slice order wins, exactly as repeated Go map assignment does. -/
def projectGroups (gs : Option (List ResourceControllerGroup)) : GroupProjection where
  hasGroupBy := fun gb => (gs.getD []).any (fun g => g.groupBy = gb)
  rules := fun gb rt =>
    (gs.getD []).foldl
      (fun acc g => if g.groupBy = gb && g.ruleType = rt then g.resources else acc) none

/-- `resourcecontroller.AllowedAndAllocated`
(`src/pkg/resourcecontroller/resource_controller.go`): group a status's
`Allowed` and `Allocated` lists by group-by, then rule type. -/
def AllowedAndAllocated (status : ResourceControllerStatus) : GroupProjection × GroupProjection :=
  (projectGroups status.allowed, projectGroups status.allocated)

/-- A map reference (possibly nil) points below `n`. -/
def refBelow : Option Ref → Nat → Bool
  | none, _ => true
  | some r, n => r < n

/-- Every map reference in a group list points below `n` (heap
well-formedness bound). -/
def groupRefsBelow (gs : List ResourceControllerGroup) (n : Nat) : Bool :=
  gs.all (fun g => refBelow g.resources n)

/-- `api.Container` (the fields the engine reads). -/
structure Container where
  name : String
  cpu : Quantity
  memory : Quantity
deriving DecidableEq, Repr

/-- `api.Pod` (the fields the engine reads). -/
structure Pod where
  name : String
  containers : List Container
deriving DecidableEq, Repr

/-- `api.Service` (only its identity is consumed, by counting). -/
structure ApiService where
  name : String
deriving DecidableEq, Repr

/-- `api.ReplicationController` (the object kind, distinct from the quota
`ResourceController`). -/
structure ApiReplicationController where
  name : String
  replicas : Int
deriving DecidableEq, Repr

/-- The tagged runtime object carried by an admission attribute. -/
inductive KubeObject where
  | pod (p : Pod)
  | service (s : ApiService)
  | replicationController (rc : ApiReplicationController)
deriving DecidableEq, Repr

/-- `meta.NewAccessor().Name(obj)` with the error branch collapsed: a nil
object yields the `"Unknown"` fallback the callers install. -/
def objectName (obj : Option KubeObject) : String :=
  match obj with
  | none => "Unknown"
  | some (.pod p) => p.name
  | some (.service s) => s.name
  | some (.replicationController rc) => rc.name

/-- `admission.Attributes`: operation kind, object kind, namespace and
payload. -/
structure Attributes where
  operation : String
  kind : String
  namespaceName : String
  object : Option KubeObject
deriving DecidableEq, Repr

/-- The payload of each `fmt.Errorf` call in the admission plug-ins, one
constructor per format string, carrying the formatted arguments.  The
waiting-for-observation message is the distinguished transient error. -/
inductive ForbiddenMsg where
  | waitingForObservation
  | limitedToKind (limit : Quantity) (kind : String) (ns : String)
  | limitToCPU (limit : Quantity) (ns : String)
  | limitToMemory (limit : Quantity) (ns : String)
  | podMemoryAboveMax (usage : Quantity) (allowedMax : Quantity)
  | podCPUAboveMax (usage : Quantity) (allowedMax : Quantity)
  | podMemoryBelowMin (usage : Quantity) (allowedMin : Quantity)
  | podCPUBelowMin (usageMilli : Int) (allowedMinMilli : Int)
  | containerMemoryAboveMax (op : String) (container : String) (usage : Quantity) (allowedMax : Quantity)
  | containerCPUAboveMax (op : String) (container : String) (usage : Quantity) (allowedMax : Quantity)
  | containerCPUBelowMin (op : String) (container : String) (shown : Quantity) (allowedMin : Quantity)
  | containerMemoryBelowMin (op : String) (container : String) (usage : Quantity) (allowedMinValue : Int)
  | replicasAboveMax (replicas : Int) (allowedMax : Quantity)
  | cannotEnforce (op : String) (kind : String)
deriving DecidableEq, Repr

/-- `apierrors.NewForbidden(kind, name, err)`. -/
structure ForbiddenError where
  kind : String
  name : String
  msg : ForbiddenMsg
deriving DecidableEq, Repr

/-- Outcome of one admission function: the `(dirty, err)` pair of the Go
signature, plus the heap after any map writes; `crash` is a Go runtime
fault (failed type assertion, write to a nil map). -/
inductive AdmResult where
  | ok (dirty : Bool) (heap : Heap)
  | err (dirty : Bool) (e : ForbiddenError) (heap : Heap)
  | crash (heap : Heap)
deriving DecidableEq, Repr

/-- The dirty flag an admission function reported (a crash reports none). -/
def AdmResult.dirtyFlag : AdmResult → Bool
  | .ok d _ => d
  | .err d _ _ => d
  | .crash _ => false

/-- `resourcelimits.AdmissionFunc` (the unused client argument is
dropped: none of the built-in functions consults it). -/
abbrev AdmissionFunc :=
  Attributes → ResourceController → ResourceObservation → Heap → AdmResult

/-- `kindsToProcess` of the namespace admission plug-in
(`src/unnamed/part_005`). -/
def kindsToProcess (kind : String) : Bool :=
  kind = "pods" || kind = "services" || kind = "replicationControllers"

/-- `kindToMaxKindResourceName` of the namespace admission plug-in; a Go
map read of a missing key yields the zero string. -/
def kindToMaxKindResourceName (kind : String) : ResourceName :=
  if kind = "pods" then "Pods"
  else if kind = "services" then "Services"
  else if kind = "replicationControllers" then "ReplicationControllers"
  else ""

/-- `makeObservation` (`src/unnamed/part_005`): write the new quantity
into the `(Namespace, Max)` allocated map of the given status, through the
`AllowedAndAllocated` projection; the write goes to the shared live map.
`none` is the Go fault of assigning into a nil map. -/
def makeObservation (h : Heap) (status : ResourceControllerStatus)
    (resourceName : ResourceName) (newQuantity : Quantity) : Option Heap :=
  let observedAllocatedByGroup := (AllowedAndAllocated status).2
  h.writeRef
    (observedAllocatedByGroup.rules ResourceControllerGroupByNamespace ResourceControllerRuleTypeMax)
    resourceName newQuantity

/-- The kind-count block of the namespace `admissionFunc`
(`src/unnamed/part_005` lines 90-116): cap the number of objects of the
inbound kind, projecting the incremented allocation on success. -/
def namespaceCountStep (a : Attributes) (input : ResourceController)
    (observation : ResourceObservation) (nm : String)
    (allowedMax allocatedMax : Option Ref) (h : Heap) : AdmResult :=
  match allowedMax with
  | none => .ok false h
  | some _ =>
    let resourceName := kindToMaxKindResourceName a.kind
    match (h.readRef allowedMax).getq resourceName with
    | none => .ok false h
    | some limit =>
      match (h.readRef allocatedMax).getq resourceName with
      | none => .err false ⟨a.kind, nm, .waitingForObservation⟩ h
      | some observed =>
        if observed.value ≥ limit.value then
          .err false ⟨a.kind, nm, .limitedToKind limit a.kind input.namespaceName⟩ h
        else
          match makeObservation h observation.status resourceName (NewQuantity (observed.value + 1)) with
          | none => .crash h
          | some h2 => .ok true h2

/-- The CPU branch of the namespace `admissionFunc` pods block
(`src/unnamed/part_005` lines 133-148). -/
def namespaceCPUStep (a : Attributes) (input : ResourceController)
    (observation : ResourceObservation) (nm : String)
    (allocatedMax : Option Ref) (cpuLimit : Quantity) (podCPU : Int)
    (dirty : Bool) (h : Heap) : AdmResult :=
  match (h.readRef allocatedMax).getq "CPU" with
  | none => .err dirty ⟨a.kind, nm, .waitingForObservation⟩ h
  | some cpuObservation =>
    if cpuObservation.milliValue + podCPU ≥ cpuLimit.milliValue then
      .err dirty ⟨a.kind, nm, .limitToCPU cpuLimit input.namespaceName⟩ h
    else
      match makeObservation h observation.status "CPU"
          (NewMilliQuantity (cpuObservation.milliValue + podCPU)) with
      | none => .crash h
      | some h2 => .ok true h2

/-- The memory branch of the namespace `admissionFunc` pods block
(`src/unnamed/part_005` lines 150-166). -/
def namespaceMemoryStep (a : Attributes) (input : ResourceController)
    (observation : ResourceObservation) (nm : String)
    (allocatedMax : Option Ref) (memLimit : Quantity) (podMem : Int)
    (dirty : Bool) (h : Heap) : AdmResult :=
  match (h.readRef allocatedMax).getq "Memory" with
  | none => .err dirty ⟨a.kind, nm, .waitingForObservation⟩ h
  | some memObservation =>
    if memObservation.value + podMem ≥ memLimit.value then
      .err dirty ⟨a.kind, nm, .limitToMemory memLimit input.namespaceName⟩ h
    else
      match makeObservation h observation.status "Memory"
          (NewQuantity (memObservation.value + podMem)) with
      | none => .crash h
      | some h2 => .ok true h2

/-- The pods block of the namespace `admissionFunc`
(`src/unnamed/part_005` lines 118-168): the object is cast to a pod
unconditionally; cumulative pod CPU/Memory is checked against the
namespace maxima when they are declared. -/
def namespacePodsBlock (a : Attributes) (input : ResourceController)
    (observation : ResourceObservation) (nm : String)
    (allowedMax allocatedMax : Option Ref) (dirty : Bool) (h : Heap) : AdmResult :=
  let cpuLimitOpt := (h.readRef allowedMax).getq "CPU"
  let memLimitOpt := (h.readRef allowedMax).getq "Memory"
  match a.object with
  | some (.pod pod) =>
    if cpuLimitOpt.isSome || memLimitOpt.isSome then
      let podCPU := pod.containers.foldl (fun acc c => acc + c.cpu.milliValue) 0
      let podMem := pod.containers.foldl (fun acc c => acc + c.memory.value) 0
      let afterCPU : AdmResult :=
        match cpuLimitOpt with
        | none => .ok dirty h
        | some cpuLimit => namespaceCPUStep a input observation nm allocatedMax cpuLimit podCPU dirty h
      match afterCPU with
      | .err d e h1 => .err d e h1
      | .crash h1 => .crash h1
      | .ok d1 h1 =>
        match memLimitOpt with
        | none => .ok d1 h1
        | some memLimit => namespaceMemoryStep a input observation nm allocatedMax memLimit podMem d1 h1
    else .ok dirty h
  | _ => .crash h

/-- The namespace-scope `admissionFunc` (`src/unnamed/part_005`,
package `namespace`). -/
def namespaceAdmissionFunc : AdmissionFunc := fun a input observation h =>
  if a.operation = "DELETE" then .ok false h
  else if ¬ kindsToProcess a.kind then .ok false h
  else
    let allowedByGroup := (AllowedAndAllocated input.status).1
    let allocatedByGroup := (AllowedAndAllocated input.status).2
    if ¬ allowedByGroup.hasGroupBy ResourceControllerGroupByNamespace then .ok false h
    -- the source re-tests the same allowed group a second time (line 78)
    else if ¬ allowedByGroup.hasGroupBy ResourceControllerGroupByNamespace then .ok false h
    else
      let nm := objectName a.object
      if a.operation = "CREATE" then
        let allowedMax := allowedByGroup.rules ResourceControllerGroupByNamespace ResourceControllerRuleTypeMax
        let allocatedMax := allocatedByGroup.rules ResourceControllerGroupByNamespace ResourceControllerRuleTypeMax
        match namespaceCountStep a input observation nm allowedMax allocatedMax h with
        | .err d e h1 => .err d e h1
        | .crash h1 => .crash h1
        | .ok d1 h1 =>
          if a.kind = "pods" then
            namespacePodsBlock a input observation nm allowedMax allocatedMax d1 h1
          else .ok d1 h1
      else .ok false h

/-- One rule check of the pod-scope `admissionFunc`
(`src/unnamed/part_002`): the violation, if any, that one
`(ruleType, resourceName, quantity)` entry raises against the pod's
cumulative usage. -/
def podEntryViolation (a : Attributes) (podName : String)
    (memoryUsage cpuUsage : Int) (rt : String)
    (nq : ResourceName × Quantity) : Option ForbiddenError :=
  let memoryQuantity := NewQuantity memoryUsage
  let cpuQuantity := NewMilliQuantity cpuUsage
  if rt = ResourceControllerRuleTypeMax then
    if nq.1 = "Memory" then
      if memoryUsage > nq.2.value then
        some ⟨a.kind, podName, .podMemoryAboveMax memoryQuantity nq.2⟩
      else none
    else if nq.1 = "CPU" then
      if cpuQuantity.milliValue > nq.2.milliValue then
        some ⟨a.kind, podName, .podCPUAboveMax cpuQuantity nq.2⟩
      else none
    else none
  else if rt = ResourceControllerRuleTypeMin then
    if nq.1 = "Memory" then
      if memoryUsage < nq.2.value then
        some ⟨a.kind, podName, .podMemoryBelowMin memoryQuantity nq.2⟩
      else none
    else if nq.1 = "CPU" then
      if cpuQuantity.milliValue < nq.2.milliValue then
        some ⟨a.kind, podName, .podCPUBelowMin cpuQuantity.milliValue nq.2.milliValue⟩
      else none
    else none
  else none

/-- The pod-scope `admissionFunc` (`src/unnamed/part_002`, package `pod`).
Go map iteration over the rule types is unspecified; the model fixes Max
before Min (the theorems proved about this function are insensitive to the
order). -/
def podAdmissionFunc : AdmissionFunc := fun a input _observation h =>
  if a.operation = "DELETE" then .ok false h
  else if a.kind ≠ "pods" then .ok false h
  else
    let allowedByGroup := (AllowedAndAllocated input.status).1
    if ¬ allowedByGroup.hasGroupBy ResourceControllerGroupByPod then .ok false h
    else
      match a.object with
      | some (.pod pod) =>
        let memoryUsage := pod.containers.foldl (fun acc c => acc + c.memory.value) 0
        let cpuUsage := pod.containers.foldl (fun acc c => acc + c.cpu.milliValue) 0
        match [ResourceControllerRuleTypeMax, ResourceControllerRuleTypeMin].findSome?
            (fun rt =>
              (h.readRef (allowedByGroup.rules ResourceControllerGroupByPod rt)).findSome?
                (podEntryViolation a pod.name memoryUsage cpuUsage rt)) with
        | some e => .err false e h
        | none => .ok false h
      | _ => .crash h

/-- One rule check of the container-scope `admissionFunc`
(`src/unnamed/part_003`): the violation one entry raises against one
container.  The below-min CPU message formats the container's memory
quantity, as the source does. -/
def containerEntryViolation (a : Attributes) (podName : String) (rt : String)
    (nq : ResourceName × Quantity) (c : Container) : Option ForbiddenError :=
  if rt = ResourceControllerRuleTypeMax then
    if nq.1 = "Memory" then
      if c.memory.value > nq.2.value then
        some ⟨a.kind, podName, .containerMemoryAboveMax a.operation c.name c.memory nq.2⟩
      else none
    else if nq.1 = "CPU" then
      if c.cpu.milliValue > nq.2.milliValue then
        some ⟨a.kind, podName, .containerCPUAboveMax a.operation c.name c.cpu nq.2⟩
      else none
    else none
  else if rt = ResourceControllerRuleTypeMin then
    if nq.1 = "CPU" then
      if c.cpu.milliValue < nq.2.milliValue then
        some ⟨a.kind, podName, .containerCPUBelowMin a.operation c.name c.memory nq.2⟩
      else none
    else if nq.1 = "Memory" then
      if c.memory.value < nq.2.value then
        some ⟨a.kind, podName, .containerMemoryBelowMin a.operation c.name c.memory nq.2.value⟩
      else none
    else none
  else none

/-- The container-scope `admissionFunc` (`src/unnamed/part_003`, package
`container`); rule types iterated Max before Min as for the pod scope. -/
def containerAdmissionFunc : AdmissionFunc := fun a input _observation h =>
  if a.operation = "DELETE" then .ok false h
  else if a.kind ≠ "pods" then .ok false h
  else
    let allowedByGroup := (AllowedAndAllocated input.status).1
    if ¬ allowedByGroup.hasGroupBy ResourceControllerGroupByContainer then .ok false h
    else
      match a.object with
      | some (.pod pod) =>
        match [ResourceControllerRuleTypeMax, ResourceControllerRuleTypeMin].findSome?
            (fun rt =>
              (h.readRef (allowedByGroup.rules ResourceControllerGroupByContainer rt)).findSome?
                (fun nq => pod.containers.findSome? (containerEntryViolation a pod.name rt nq))) with
        | some e => .err false e h
        | none => .ok false h
      | _ => .crash h

/-- One rule check of the replication-controller-scope `admissionFunc`
(`src/unnamed/part_001`): only `(Max, Replicas)` is inspected. -/
def replicationControllerEntryViolation (a : Attributes) (rcName : String)
    (replicas : Int) (rt : String) (nq : ResourceName × Quantity) : Option ForbiddenError :=
  if rt = ResourceControllerRuleTypeMax then
    if nq.1 = "Replicas" then
      if replicas > nq.2.value then
        some ⟨a.kind, rcName, .replicasAboveMax replicas nq.2⟩
      else none
    else none
  else none

/-- The replication-controller-scope `admissionFunc`
(`src/unnamed/part_001`, package `replicationcontroller`). -/
def replicationControllerAdmissionFunc : AdmissionFunc := fun a input _observation h =>
  if a.operation = "DELETE" then .ok false h
  else if a.kind ≠ "replicationControllers" then .ok false h
  else
    let allowedByGroup := (AllowedAndAllocated input.status).1
    if ¬ allowedByGroup.hasGroupBy ResourceControllerGroupByReplicationController then .ok false h
    else
      match a.object with
      | some (.replicationController rc) =>
        match [ResourceControllerRuleTypeMax, ResourceControllerRuleTypeMin].findSome?
            (fun rt =>
              (h.readRef (allowedByGroup.rules ResourceControllerGroupByReplicationController rt)).findSome?
                (replicationControllerEntryViolation a rc.name rc.replicas rt)) with
        | some e => .err false e h
        | none => .ok false h
      | _ => .crash h

/-- The observation snapshot built per controller by `Admit`
(`src/plugin/pkg/admission/resourcelimits/admission.go` lines 57-67):
both status slices are allocated with `len(Status.Allowed)` zero groups,
then element-copied from `Status.Allowed` and `Status.Allocated`, so the
group structs (and their map references) are shared. -/
def admitSnapshot (controller : ResourceController) : ResourceObservation :=
  let n := (controller.status.allowed.getD []).length
  let src := controller.status.allocated.getD []
  { name := controller.name
    namespaceName := controller.namespaceName
    resourceVersion := controller.resourceVersion
    status :=
      { allowed := some (controller.status.allowed.getD [])
        allocated := some (src.take n ++ List.replicate (n - src.length) zeroGroup) } }

/-- The per-controller admission-function loop of `Admit` (lines 70-77):
invoke each function in list order, abort on the first error, aggregate
dirty with logical or. -/
def runAdmissionFuncs (funcs : List AdmissionFunc) (a : Attributes)
    (input : ResourceController) (observation : ResourceObservation)
    (h : Heap) (dirty : Bool) : AdmResult :=
  match funcs with
  | [] => .ok dirty h
  | f :: rest =>
    match f a input observation h with
    | .ok funcDirty h1 => runAdmissionFuncs rest a input observation h1 (dirty || funcDirty)
    | .err d e h1 => .err d e h1
    | .crash h1 => .crash h1

/-- The overall result of one `Admit` call: the observations passed to
`ResourceObservations.Create`, in order, plus the final heap. -/
inductive AdmitResult where
  | admitted (emitted : List ResourceObservation) (heap : Heap)
  | rejected (emitted : List ResourceObservation) (e : ForbiddenError) (heap : Heap)
  | crashed (emitted : List ResourceObservation) (heap : Heap)
deriving DecidableEq, Repr

/-- The controller loop of `Admit` (lines 54-85); the emit to
`ResourceObservations.Create` is modelled as succeeding and recorded in
order. -/
def admitLoop (a : Attributes) (funcs : List AdmissionFunc) :
    List ResourceController → Heap → List ResourceObservation → AdmitResult
  | [], h, emitted => .admitted emitted h
  | controller :: rest, h, emitted =>
    let resourceObservation := admitSnapshot controller
    match runAdmissionFuncs funcs a controller resourceObservation h false with
    | .err _ e h1 => .rejected emitted e h1
    | .crash h1 => .crashed emitted h1
    | .ok dirty h1 =>
      if dirty then admitLoop a funcs rest h1 (emitted ++ [resourceObservation])
      else admitLoop a funcs rest h1 emitted

/-- The result of a store `List` call as the repository's client produces
it (`src/unnamed/part_006`): the error flag plus an always-usable list,
initialized empty before the request. -/
structure ControllerListResult where
  errored : Bool
  items : List ResourceController
deriving Repr

/-- `limits.Admit` (`src/plugin/pkg/admission/resourcelimits/admission.go`):
resolve the display name, reject with a cannot-enforce forbidden error when
the controller listing failed, otherwise process every controller. -/
def admitHandler (a : Attributes) (listResult : ControllerListResult)
    (funcs : List AdmissionFunc) (h : Heap) : AdmitResult :=
  if listResult.errored then
    .rejected [] ⟨a.kind, objectName a.object, .cannotEnforce a.operation a.kind⟩ h
  else admitLoop a funcs listResult.items h []

/-- `RegisterAdmissionFunc` (`src/unnamed/part_004`): append under the
name; a duplicate name is the fatal startup error, modelled as `none`.
Generic in the registered value so that registration order is
observable. -/
def registerAdmissionFunc {α : Type} (plugins : List (String × α))
    (name : String) (f : α) : Option (List (String × α)) :=
  if plugins.any (fun p => p.1 = name) then none
  else some (plugins ++ [(name, f)])

/-- Run a whole startup registration sequence. -/
def registerAdmissionFuncSeq {α : Type} :
    List (String × α) → List (String × α) → Option (List (String × α))
  | [], plugins => some plugins
  | (name, f) :: rest, plugins =>
    match registerAdmissionFunc plugins name f with
    | none => none
    | some plugins1 => registerAdmissionFuncSeq rest plugins1

/-- Go map read `plugins[name]`. -/
def pluginsLookup {α : Type} (plugins : List (String × α)) (name : String) : Option α :=
  (plugins.find? (fun p => p.1 = name)).map (fun p => p.2)

/-- `GetAdmissionFuncs` (`src/unnamed/part_004`): collect the values of
the `plugins` map by ranging over it.  Go map iteration order is
unspecified, so the order is an explicit argument; an order is valid when
it is a permutation of the registered names. -/
def getAdmissionFuncs {α : Type} (plugins : List (String × α))
    (order : List String) : List α :=
  order.filterMap (pluginsLookup plugins)

/-- The store snapshot one reconciler tick task evaluates against.  The
per-task tick cache only memoizes these listings, so with an error-free
snapshot the cache is transparent and evaluators read the snapshot
directly. -/
structure Cluster where
  podsIn : String → List Pod
  servicesIn : String → List ApiService
  replicationControllersIn : String → List ApiReplicationController

/-- `resourcecontroller.ObserverFunc`: evaluate one rule key in a
namespace; listing errors propagate. -/
abbrev ObserverFunc := Cluster → String → Except Unit Quantity

/-- Cumulative pod CPU in milli units, as every evaluator computes it. -/
def podCPUSumMilli (p : Pod) : Int :=
  p.containers.foldl (fun acc c => acc + c.cpu.milliValue) 0

/-- Cumulative pod memory in integral units. -/
def podMemorySum (p : Pod) : Int :=
  p.containers.foldl (fun acc c => acc + c.memory.value) 0

/-- The inner container loop of the container-scope Min evaluators
(`observer.go` lines 187-193 and 226-232): `i` and `j` are the Go range
indices; the seed fires only for the first container of the first pod. -/
def cminContainers (f : Container → Int) (i : Nat) :
    Nat → Int → List Container → Int
  | _, val, [] => val
  | j, val, c :: rest =>
    cminContainers f i (j + 1) (if f c < val ∨ (i = 0 ∧ j = 0) then f c else val) rest

/-- The outer pod loop of the container-scope Min evaluators. -/
def cminPods (f : Container → Int) : Nat → Int → List Pod → Int
  | _, val, [] => val
  | i, val, p :: rest => cminPods f (i + 1) (cminContainers f i 0 val p.containers) rest

/-- The pod loop of the pod-scope Min evaluators (`observer.go` lines
274-282 and 316-324): the first pod always seeds. -/
def pminPods (g : Pod → Int) : Nat → Int → List Pod → Int
  | _, val, [] => val
  | i, val, p :: rest => pminPods g (i + 1) (if i = 0 ∨ g p < val then g p else val) rest

/-- Namespace Max CPU evaluator: sum of container milli-CPU over all pods. -/
def namespaceMaxCPUObserver : ObserverFunc := fun snap namespaceName =>
  .ok (NewMilliQuantity ((snap.podsIn namespaceName).foldl (fun val p => val + podCPUSumMilli p) 0))

/-- Namespace Max Memory evaluator: sum of container memory over all pods. -/
def namespaceMaxMemoryObserver : ObserverFunc := fun snap namespaceName =>
  .ok (NewQuantity ((snap.podsIn namespaceName).foldl (fun val p => val + podMemorySum p) 0))

/-- Namespace Max Pods evaluator: pod count. -/
def namespaceMaxPodsObserver : ObserverFunc := fun snap namespaceName =>
  .ok (NewQuantity ((snap.podsIn namespaceName).length : Int))

/-- Namespace Max Services evaluator: service count. -/
def namespaceMaxServicesObserver : ObserverFunc := fun snap namespaceName =>
  .ok (NewQuantity ((snap.servicesIn namespaceName).length : Int))

/-- Namespace Max ReplicationControllers evaluator: controller count. -/
def namespaceMaxReplicationControllersObserver : ObserverFunc := fun snap namespaceName =>
  .ok (NewQuantity ((snap.replicationControllersIn namespaceName).length : Int))

/-- Container Max Memory evaluator: running maximum over all containers. -/
def containerMaxMemoryObserver : ObserverFunc := fun snap namespaceName =>
  .ok (NewQuantity ((snap.podsIn namespaceName).foldl
    (fun val p => p.containers.foldl (fun v c => if c.memory.value > v then c.memory.value else v) val) 0))

/-- Container Min Memory evaluator: running minimum seeded at the first
container of the first pod. -/
def containerMinMemoryObserver : ObserverFunc := fun snap namespaceName =>
  .ok (NewQuantity (cminPods (fun c => c.memory.value) 0 0 (snap.podsIn namespaceName)))

/-- Container Max CPU evaluator. -/
def containerMaxCPUObserver : ObserverFunc := fun snap namespaceName =>
  .ok (NewMilliQuantity ((snap.podsIn namespaceName).foldl
    (fun val p => p.containers.foldl (fun v c => if c.cpu.milliValue > v then c.cpu.milliValue else v) val) 0))

/-- Container Min CPU evaluator: running minimum seeded at the first
container of the first pod. -/
def containerMinCPUObserver : ObserverFunc := fun snap namespaceName =>
  .ok (NewMilliQuantity (cminPods (fun c => c.cpu.milliValue) 0 0 (snap.podsIn namespaceName)))

/-- Pod Max CPU evaluator: maximum over pods of cumulative milli-CPU. -/
def podMaxCPUObserver : ObserverFunc := fun snap namespaceName =>
  .ok (NewMilliQuantity ((snap.podsIn namespaceName).foldl
    (fun val p => if podCPUSumMilli p > val then podCPUSumMilli p else val) 0))

/-- Pod Min CPU evaluator: minimum over pods of cumulative milli-CPU,
seeded with the first pod. -/
def podMinCPUObserver : ObserverFunc := fun snap namespaceName =>
  .ok (NewMilliQuantity (pminPods podCPUSumMilli 0 0 (snap.podsIn namespaceName)))

/-- Pod Max Memory evaluator. -/
def podMaxMemoryObserver : ObserverFunc := fun snap namespaceName =>
  .ok (NewQuantity ((snap.podsIn namespaceName).foldl
    (fun val p => if podMemorySum p > val then podMemorySum p else val) 0))

/-- Pod Min Memory evaluator, seeded with the first pod. -/
def podMinMemoryObserver : ObserverFunc := fun snap namespaceName =>
  .ok (NewQuantity (pminPods podMemorySum 0 0 (snap.podsIn namespaceName)))

/-- ReplicationController Max Replicas evaluator: maximum `spec.replicas`. -/
def replicationControllerMaxReplicasObserver : ObserverFunc := fun snap namespaceName =>
  .ok (NewQuantity ((snap.replicationControllersIn namespaceName).foldl
    (fun val rc => if rc.replicas > val then rc.replicas else val) 0))

/-- `resourcecontroller.ObserverFuncBinding`. -/
structure ObserverFuncBinding where
  groupBy : String
  ruleType : String
  resourceName : ResourceName
  func : ObserverFunc

/-- `observerFuncKey` (`resource_controller.go`): dot-joined rule key. -/
def observerFuncKey (groupBy ruleType : String) (name : ResourceName) : String :=
  groupBy ++ "." ++ ruleType ++ "." ++ name

/-- `observer.ObserverFuncBindings`
(`src/plugin/pkg/admission/resourcelimits/observer.go`): namespace,
container, pod, then replication-controller bindings, in source order. -/
def observerFuncBindings : List ObserverFuncBinding :=
  [ ⟨ResourceControllerGroupByNamespace, ResourceControllerRuleTypeMax, "CPU", namespaceMaxCPUObserver⟩
  , ⟨ResourceControllerGroupByNamespace, ResourceControllerRuleTypeMax, "Memory", namespaceMaxMemoryObserver⟩
  , ⟨ResourceControllerGroupByNamespace, ResourceControllerRuleTypeMax, "Pods", namespaceMaxPodsObserver⟩
  , ⟨ResourceControllerGroupByNamespace, ResourceControllerRuleTypeMax, "Services", namespaceMaxServicesObserver⟩
  , ⟨ResourceControllerGroupByNamespace, ResourceControllerRuleTypeMax, "ReplicationControllers", namespaceMaxReplicationControllersObserver⟩
  , ⟨ResourceControllerGroupByContainer, ResourceControllerRuleTypeMax, "Memory", containerMaxMemoryObserver⟩
  , ⟨ResourceControllerGroupByContainer, ResourceControllerRuleTypeMin, "Memory", containerMinMemoryObserver⟩
  , ⟨ResourceControllerGroupByContainer, ResourceControllerRuleTypeMax, "CPU", containerMaxCPUObserver⟩
  , ⟨ResourceControllerGroupByContainer, ResourceControllerRuleTypeMin, "CPU", containerMinCPUObserver⟩
  , ⟨ResourceControllerGroupByPod, ResourceControllerRuleTypeMax, "CPU", podMaxCPUObserver⟩
  , ⟨ResourceControllerGroupByPod, ResourceControllerRuleTypeMin, "CPU", podMinCPUObserver⟩
  , ⟨ResourceControllerGroupByPod, ResourceControllerRuleTypeMax, "Memory", podMaxMemoryObserver⟩
  , ⟨ResourceControllerGroupByPod, ResourceControllerRuleTypeMin, "Memory", podMinMemoryObserver⟩
  , ⟨ResourceControllerGroupByReplicationController, ResourceControllerRuleTypeMax, "Replicas", replicationControllerMaxReplicasObserver⟩ ]

/-- The `observerFuncs` map built by `NewResourceManager`: later bindings
overwrite earlier ones under the same key, as Go map assignment does. -/
def buildObserverFuncs (bindings : List ObserverFuncBinding) :
    String → Option ObserverFunc := fun key =>
  bindings.foldl
    (fun acc b =>
      if observerFuncKey b.groupBy b.ruleType b.resourceName = key then some b.func else acc)
    none

/-- The observer-function map of the built-in observer plug-in. -/
def builtinObserverFuncs : String → Option ObserverFunc :=
  buildObserverFuncs observerFuncBindings

/-- The inner resource-name loop of `syncResourceController`
(`resource_controller.go` lines 132-149): look up the evaluator for each
name of the group (Go map range order is unspecified; the model iterates
the entries in list order, and the proved properties are insensitive to
it), write the fresh quantity into the observation cell, and compare
integer values against the previously allocated quantity (a missing
previous entry reads as the zero quantity). -/
def syncNames (lookupF : String → Option ObserverFunc) (snap : Cluster)
    (namespaceName : String) (prevProj : GroupProjection)
    (g : ResourceControllerGroup) (fresh : Ref) :
    List (ResourceName × Quantity) → Heap → Bool → Except Unit (Heap × Bool)
  | [], h, dirty => .ok (h, dirty)
  | (name, _) :: rest, h, dirty =>
    match lookupF (observerFuncKey g.groupBy g.ruleType name) with
    | none => syncNames lookupF snap namespaceName prevProj g fresh rest h dirty
    | some observe =>
      match observe snap namespaceName with
      | .error e => .error e
      | .ok quantity =>
        let h1 := h.writeCell fresh name quantity
        let prevQuantity :=
          ((h1.readRef (prevProj.rules g.groupBy g.ruleType)).getq name).getD zeroQuantity
        syncNames lookupF snap namespaceName prevProj g fresh rest h1
          (dirty || (quantity.value != prevQuantity.value))

/-- The group loop of `syncResourceController` (lines 121-152): each group
gets a freshly allocated observation map, filled by `syncNames`; the
result group keeps the source group's scope and rule type. -/
def syncGroups (lookupF : String → Option ObserverFunc) (snap : Cluster)
    (namespaceName : String) (prevProj : GroupProjection) :
    List ResourceControllerGroup → Heap → Bool →
    Except Unit (List ResourceControllerGroup × Heap × Bool)
  | [], h, dirty => .ok ([], h, dirty)
  | g :: rest, h, dirty =>
    let fresh := h.length
    let h0 := h ++ [[]]
    match syncNames lookupF snap namespaceName prevProj g fresh (h.readRef g.resources) h0 dirty with
    | .error e => .error e
    | .ok (h1, d1) =>
      match syncGroups lookupF snap namespaceName prevProj rest h1 d1 with
      | .error e => .error e
      | .ok (gs, h2, d2) => .ok (⟨g.groupBy, g.ruleType, some fresh⟩ :: gs, h2, d2)

/-- `syncResourceController` (`resource_controller.go` lines 100-158):
build the observation skeleton (allowed copied from `Spec.Allowed`, so the
map references are shared), seed dirty when the status has never been
observed, evaluate every group, and emit the observation only when
dirty (`none` means no emission). -/
def syncResourceController (lookupF : String → Option ObserverFunc)
    (snap : Cluster) (controller : ResourceController) (h : Heap) :
    Except Unit (Option ResourceObservation × Heap) :=
  let dirty0 := controller.status.allowed.isNone || controller.status.allocated.isNone
  let prevProj := (AllowedAndAllocated controller.status).2
  match syncGroups lookupF snap controller.namespaceName prevProj controller.specAllowed h dirty0 with
  | .error e => .error e
  | .ok (allocatedGroups, h1, dirty) =>
    let resourceObservation : ResourceObservation :=
      { name := controller.name
        namespaceName := controller.namespaceName
        resourceVersion := controller.resourceVersion
        status := { allowed := some controller.specAllowed, allocated := some allocatedGroups } }
    .ok ((if dirty then some resourceObservation else none), h1)

/-- What one `synchronize` tick did. -/
structure SyncTickResult where
  loggedListError : Bool
  handled : List (Except Unit Unit)
deriving Repr

/-- `synchronize` (`resource_controller.go` lines 72-92): a listing error
is logged, and the loop then runs over `list.Items` — the empty-initialized
list the repository's client returns alongside an error — so a failing
listing yields an empty tick; per-controller handler failures are logged
and do not abort peers. -/
def synchronize (syncHandler : ResourceController → Except Unit Unit)
    (listResult : ControllerListResult) : SyncTickResult :=
  { loggedListError := listResult.errored
    handled := listResult.items.map syncHandler }

/-- Specification-side minimum of a list of integers, 0 when empty (the
convention the spec states for Min evaluators). -/
def listMinInt : List Int → Int
  | [] => 0
  | x :: xs => xs.foldl min x

/-- All containers of a pod listing, in encounter order. -/
def allContainers (pods : List Pod) : List Container :=
  (pods.map (fun p => p.containers)).flatten

/-- The per-group dirty condition of `syncResourceController`, as a formula
over the inputs: some evaluated rule key of the group whose integer value
differs from the previously allocated quantity (a missing previous entry
reads as zero). -/
def groupDirtyFormula (lookupF : String → Option ObserverFunc) (snap : Cluster)
    (namespaceName : String) (prevProj : GroupProjection) (h : Heap)
    (g : ResourceControllerGroup) : Bool :=
  (h.readRef g.resources).any fun nq =>
    match lookupF (observerFuncKey g.groupBy g.ruleType nq.1) with
    | none => false
    | some observe =>
      match observe snap namespaceName with
      | .error _ => false
      | .ok q =>
        q.value !=
          (((h.readRef (prevProj.rules g.groupBy g.ruleType)).getq nq.1).getD zeroQuantity).value

/-- The dirty condition `syncResourceController` actually computes, written
as a formula over the inputs: never-observed status, or some evaluated
rule key whose integer value differs from the previously allocated one. -/
def syncDirtyFormula (lookupF : String → Option ObserverFunc) (snap : Cluster)
    (controller : ResourceController) (h : Heap) : Bool :=
  (controller.status.allowed.isNone || controller.status.allocated.isNone) ||
  controller.specAllowed.any
    (groupDirtyFormula lookupF snap controller.namespaceName
      (AllowedAndAllocated controller.status).2 h)

/-! ### Shared lemmas about the map and heap model -/

theorem getq_append_miss (rl : ResourceList) (tail : ResourceList) (n : ResourceName)
    (hmiss : rl.getq n = none) : (rl ++ tail).getq n = tail.getq n := by
  induction rl with
  | nil => simp
  | cons p rest ih =>
    by_cases hp : p.1 = n
    · simp [ResourceList.getq, hp] at hmiss
    · simp only [ResourceList.getq, hp, if_neg, List.cons_append, ite_false]
      exact ih (by simpa [ResourceList.getq, hp] using hmiss)

theorem getq_none_of_any_false (rl : ResourceList) (n : ResourceName)
    (hr : rl.any (fun p => p.1 = n) = false) : rl.getq n = none := by
  induction rl with
  | nil => rfl
  | cons p rest ih =>
    simp only [List.any_cons, Bool.or_eq_false_iff, decide_eq_false_iff_not] at hr
    simp only [ResourceList.getq, hr.1, ite_false]
    exact ih (by simp [hr.2])

theorem getq_setq_self (rl : ResourceList) (n : ResourceName) (q : Quantity) :
    (rl.setq n q).getq n = some q := by
  unfold ResourceList.setq
  split
  case isTrue hr =>
    induction rl with
    | nil => simp at hr
    | cons p rest ih =>
      by_cases hp : p.1 = n
      · rw [List.map_cons, if_pos hp]
        simp [ResourceList.getq]
      · have hr2 : rest.any (fun p => p.1 = n) = true := by
          simpa [List.any_cons, hp] using hr
        rw [List.map_cons, if_neg hp]
        simp only [ResourceList.getq, if_neg hp]
        exact ih hr2
  case isFalse hr =>
    have hr2 : rl.any (fun p => p.1 = n) = false := by
      cases hx : rl.any (fun p => p.1 = n) with
      | true => exact absurd hx hr
      | false => rfl
    rw [getq_append_miss _ _ _ (getq_none_of_any_false _ _ hr2)]
    simp [ResourceList.getq]

theorem getq_setq_ne (rl : ResourceList) (n m : ResourceName) (q : Quantity)
    (hne : m ≠ n) : (rl.setq n q).getq m = rl.getq m := by
  unfold ResourceList.setq
  split
  case isTrue hr =>
    clear hr
    induction rl with
    | nil => rfl
    | cons p rest ih =>
      by_cases hp : p.1 = n
      · have hpm : p.1 ≠ m := by rw [hp]; exact Ne.symm hne
        rw [List.map_cons, if_pos hp]
        simp only [ResourceList.getq]
        rw [if_neg (Ne.symm hne), if_neg hpm]
        exact ih
      · rw [List.map_cons, if_neg hp]
        simp only [ResourceList.getq]
        by_cases hpm : p.1 = m
        · rw [if_pos hpm, if_pos hpm]
        · rw [if_neg hpm, if_neg hpm]
          exact ih
  case isFalse hr =>
    clear hr
    induction rl with
    | nil =>
      simp only [List.nil_append, ResourceList.getq]
      rw [if_neg (Ne.symm hne)]
    | cons p rest ih =>
      rw [List.cons_append]
      simp only [ResourceList.getq]
      by_cases hpm : p.1 = m
      · rw [if_pos hpm, if_pos hpm]
      · rw [if_neg hpm, if_neg hpm]
        exact ih

theorem key_mem_setq_self (rl : ResourceList) (n : ResourceName) (q : Quantity) :
    (rl.setq n q).getq n ≠ none := by
  simp [getq_setq_self]

theorem key_mem_setq_mono (rl : ResourceList) (n m : ResourceName) (q : Quantity)
    (hm : rl.getq m ≠ none) : (rl.setq n q).getq m ≠ none := by
  by_cases hmn : m = n
  · subst hmn; simp [getq_setq_self]
  · rw [getq_setq_ne _ _ _ _ hmn]; exact hm

theorem writeCell_length (h : Heap) (i : Ref) (n : ResourceName) (q : Quantity) :
    (h.writeCell i n q).length = h.length := by
  simp [Heap.writeCell]

theorem writeCell_getD_ne (h : Heap) (i j : Ref) (n : ResourceName) (q : Quantity)
    (hne : j ≠ i) : (h.writeCell i n q).getD j [] = h.getD j [] := by
  simp only [Heap.writeCell, List.getD]
  rw [List.get?_set_ne _ _ (fun hh => hne hh.symm)]

theorem writeCell_getD_self (h : Heap) (i : Ref) (n : ResourceName) (q : Quantity)
    (hi : i < h.length) : (h.writeCell i n q).getD i [] = (h.getD i []).setq n q := by
  simp only [Heap.writeCell, List.getD]
  rw [List.get?_set_eq_of_lt _ hi]
  rfl

theorem foldl_rules_replicate_zero (gb rt : String) (hgb : gb ≠ "") (k : Nat) (acc : Option Ref) :
    (List.replicate k zeroGroup).foldl
      (fun acc g => if g.groupBy = gb && g.ruleType = rt then g.resources else acc) acc = acc := by
  induction k generalizing acc with
  | zero => rfl
  | succ k ih =>
    rw [List.replicate_succ, List.foldl_cons]
    have hz : (if zeroGroup.groupBy = gb && zeroGroup.ruleType = rt then zeroGroup.resources else acc) = acc := by
      simp [zeroGroup, Ne.symm hgb]
    rw [hz]
    exact ih acc

theorem foldl_rules_some (gb rt : String) (r : Ref) :
    ∀ (l : List ResourceControllerGroup) (acc : Option Ref),
      l.foldl (fun acc g => if g.groupBy = gb && g.ruleType = rt then g.resources else acc) acc = some r →
      (l.any (fun g => g.groupBy = gb) = true) ∨ acc = some r := by
  intro l
  induction l with
  | nil => intro acc hacc; exact Or.inr hacc
  | cons g rest ih =>
    intro acc hacc
    rw [List.foldl_cons] at hacc
    rcases ih _ hacc with hany | hstep
    · exact Or.inl (by simp [List.any_cons, hany])
    · by_cases hcond : (g.groupBy = gb && g.ruleType = rt) = true
      · have := (Bool.and_eq_true _ _).mp hcond
        exact Or.inl (by simp [List.any_cons, of_decide_eq_true this.1])
      · rw [if_neg hcond] at hstep
        exact Or.inr hstep

theorem rules_some_hasGroupBy (gs : Option (List ResourceControllerGroup)) (gb rt : String)
    (r : Ref) (hr : (projectGroups gs).rules gb rt = some r) :
    (projectGroups gs).hasGroupBy gb = true := by
  rcases foldl_rules_some gb rt r (gs.getD []) none hr with hany | habs
  · exact hany
  · exact absurd habs (by simp)

theorem admitSnapshot_allocated_rules (c : ResourceController) (gb rt : String)
    (hgb : gb ≠ "")
    (hlen : (c.status.allocated.getD []).length ≤ (c.status.allowed.getD []).length) :
    (projectGroups (admitSnapshot c).status.allocated).rules gb rt =
      (projectGroups c.status.allocated).rules gb rt := by
  have htake : (c.status.allocated.getD []).take (c.status.allowed.getD []).length =
      c.status.allocated.getD [] := List.take_of_length_le hlen
  show (((c.status.allocated.getD []).take (c.status.allowed.getD []).length ++
      List.replicate ((c.status.allowed.getD []).length - (c.status.allocated.getD []).length) zeroGroup).foldl _ none) = _
  rw [htake, List.foldl_append, foldl_rules_replicate_zero gb rt hgb]
  rfl

/-! ### C7: delete exemption -/

/-- C7: for every admission call whose Operation is DELETE, every built-in
admission function (namespace, pod, container, replication-controller
scope) returns `(false, nil)` — neither an error nor a dirty observation —
regardless of the controller's rules or the object payload. -/
theorem C7_delete_exemption (a : Attributes) (input : ResourceController)
    (observation : ResourceObservation) (h : Heap) (hop : a.operation = "DELETE") :
    namespaceAdmissionFunc a input observation h = .ok false h ∧
    podAdmissionFunc a input observation h = .ok false h ∧
    containerAdmissionFunc a input observation h = .ok false h ∧
    replicationControllerAdmissionFunc a input observation h = .ok false h := by
  refine ⟨?_, ?_, ?_, ?_⟩ <;>
    simp [namespaceAdmissionFunc, podAdmissionFunc, containerAdmissionFunc,
      replicationControllerAdmissionFunc, hop]

/-- Witness for C7 at a concrete DELETE call. -/
theorem C7_delete_exemption_witness :
    namespaceAdmissionFunc ⟨"DELETE", "pods", "ns", none⟩
        ⟨"q", "ns", "1", [], ⟨none, none⟩⟩ ⟨"q", "ns", "1", ⟨none, none⟩⟩ [] = .ok false [] ∧
    podAdmissionFunc ⟨"DELETE", "pods", "ns", none⟩
        ⟨"q", "ns", "1", [], ⟨none, none⟩⟩ ⟨"q", "ns", "1", ⟨none, none⟩⟩ [] = .ok false [] ∧
    containerAdmissionFunc ⟨"DELETE", "pods", "ns", none⟩
        ⟨"q", "ns", "1", [], ⟨none, none⟩⟩ ⟨"q", "ns", "1", ⟨none, none⟩⟩ [] = .ok false [] ∧
    replicationControllerAdmissionFunc ⟨"DELETE", "pods", "ns", none⟩
        ⟨"q", "ns", "1", [], ⟨none, none⟩⟩ ⟨"q", "ns", "1", ⟨none, none⟩⟩ [] = .ok false [] :=
  C7_delete_exemption ⟨"DELETE", "pods", "ns", none⟩
    ⟨"q", "ns", "1", [], ⟨none, none⟩⟩ ⟨"q", "ns", "1", ⟨none, none⟩⟩ [] rfl

/-! ### C8: reconciler listing-error safety -/

/-- C8: when the controller listing of a reconciler tick fails, the
`synchronize` step logs the error and treats the tick as empty — it syncs
no controllers — and the (total) model of `synchronize` completes without
fault; the empty items list is what the repository's client returns
alongside a listing error, since it initializes the result before the
request. -/
theorem C8_listing_error_empty_tick (syncHandler : ResourceController → Except Unit Unit)
    (listResult : ControllerListResult) (hfail : listResult.errored = true)
    (hempty : listResult.items = []) :
    synchronize syncHandler listResult = ⟨true, []⟩ := by
  simp [synchronize, hfail, hempty]

/-- Witness for C8 at a concrete failing listing. -/
theorem C8_listing_error_empty_tick_witness :
    synchronize (fun _ => Except.ok ()) ⟨true, []⟩ = ⟨true, []⟩ :=
  C8_listing_error_empty_tick (fun _ => Except.ok ()) ⟨true, []⟩ rfl rfl

theorem writeCell_getq_other (h : Heap) (i j : Ref) (n m : ResourceName) (q : Quantity)
    (hi : i < h.length) (hmn : m ≠ n) :
    ((h.writeCell i n q).getD j []).getq m = (h.getD j []).getq m := by
  by_cases hij : j = i
  · subst hij
    rw [writeCell_getD_self _ _ _ _ hi, getq_setq_ne _ _ _ _ hmn]
  · rw [writeCell_getD_ne _ _ _ _ _ hij]

/-! ### C1: namespace pod-count admission -/

theorem namespaceCountStep_pods (a : Attributes) (c : ResourceController)
    (obs : ResourceObservation) (nm : String) (ra rb : Ref) (h : Heap) (L A : Quantity)
    (hkind : a.kind = "pods")
    (hL : (h.getD ra []).getq "Pods" = some L)
    (hA : (h.getD rb []).getq "Pods" = some A) :
    namespaceCountStep a c obs nm (some ra) (some rb) h =
      (if A.value ≥ L.value then
        .err false ⟨a.kind, nm, .limitedToKind L a.kind c.namespaceName⟩ h
       else
        match makeObservation h obs.status "Pods" (NewQuantity (A.value + 1)) with
        | none => .crash h
        | some h2 => .ok true h2) := by
  simp only [namespaceCountStep, hkind, kindToMaxKindResourceName, if_true,
    Heap.readRef, hL, hA]

theorem namespaceAdmissionFunc_pods_count (a : Attributes) (p : Pod) (c : ResourceController)
    (h : Heap) (ra rb : Ref) (L A : Quantity)
    (hop : a.operation = "CREATE") (hkind : a.kind = "pods")
    (hobj : a.object = some (.pod p))
    (hallow : (projectGroups c.status.allowed).rules ResourceControllerGroupByNamespace
      ResourceControllerRuleTypeMax = some ra)
    (halloc : (projectGroups c.status.allocated).rules ResourceControllerGroupByNamespace
      ResourceControllerRuleTypeMax = some rb)
    (hL : (h.getD ra []).getq "Pods" = some L)
    (hA : (h.getD rb []).getq "Pods" = some A)
    (hnoCPU : (h.getD ra []).getq "CPU" = none)
    (hnoMem : (h.getD ra []).getq "Memory" = none)
    (hrb : rb < h.length)
    (hlen : (c.status.allocated.getD []).length ≤ (c.status.allowed.getD []).length) :
    namespaceAdmissionFunc a c (admitSnapshot c) h =
      (if A.value ≥ L.value then
        .err false ⟨"pods", p.name, .limitedToKind L "pods" c.namespaceName⟩ h
      else .ok true (h.writeCell rb "Pods" (NewQuantity (A.value + 1)))) := by
  have hhas := rules_some_hasGroupBy c.status.allowed _ _ _ hallow
  have hsnap : (projectGroups (admitSnapshot c).status.allocated).rules
      ResourceControllerGroupByNamespace ResourceControllerRuleTypeMax = some rb := by
    rw [admitSnapshot_allocated_rules c _ _ (by decide) hlen]
    exact halloc
  have hcount := namespaceCountStep_pods a c (admitSnapshot c)
    (objectName (some (KubeObject.pod p))) ra rb h L A hkind hL hA
  rw [namespaceAdmissionFunc]
  simp only [hop, hkind, hobj]
  rw [if_neg (by decide)]
  rw [if_neg (by simp [kindsToProcess])]
  simp only [AllowedAndAllocated]
  rw [if_neg (by simp [hhas]), if_neg (by simp [hhas])]
  simp only [if_true, hallow, halloc]
  rw [hcount]
  simp only [hkind, objectName]
  by_cases hcmp : A.value ≥ L.value
  · rw [if_pos hcmp, if_pos hcmp]
  · rw [if_neg hcmp, if_neg hcmp]
    simp only [makeObservation, AllowedAndAllocated, hsnap, Heap.writeRef]
    rw [namespacePodsBlock]
    simp only [Heap.readRef,
      writeCell_getq_other h rb ra "Pods" "CPU" (NewQuantity (A.value + 1)) hrb (by decide),
      writeCell_getq_other h rb ra "Pods" "Memory" (NewQuantity (A.value + 1)) hrb (by decide),
      hnoCPU, hnoMem, hobj]
    simp

/-- C1: on a CREATE of kind pods against a controller whose status carries
an allowed `(Namespace, Max, Pods)` limit `L` and an allocated entry `A`
for Pods (and no namespace CPU/Memory maxima), the namespace admission
function fails with a forbidden error when `A ≥ L` and `Admit` then emits
no observation for that controller; when `A < L` it succeeds, writes
`A + 1` into the observation's allocated `(Namespace, Max, Pods)` entry,
reports dirty, and `Admit` emits the observation via
`ResourceObservations.Create`. -/
theorem C1_namespace_pod_count (a : Attributes) (p : Pod) (c : ResourceController)
    (h : Heap) (ra rb : Ref) (L A : Quantity)
    (hop : a.operation = "CREATE") (hkind : a.kind = "pods")
    (hobj : a.object = some (.pod p))
    (hallow : (projectGroups c.status.allowed).rules ResourceControllerGroupByNamespace
      ResourceControllerRuleTypeMax = some ra)
    (halloc : (projectGroups c.status.allocated).rules ResourceControllerGroupByNamespace
      ResourceControllerRuleTypeMax = some rb)
    (hL : (h.getD ra []).getq "Pods" = some L)
    (hA : (h.getD rb []).getq "Pods" = some A)
    (hnoCPU : (h.getD ra []).getq "CPU" = none)
    (hnoMem : (h.getD ra []).getq "Memory" = none)
    (hrb : rb < h.length)
    (hlen : (c.status.allocated.getD []).length ≤ (c.status.allowed.getD []).length) :
    (A.value ≥ L.value →
      namespaceAdmissionFunc a c (admitSnapshot c) h =
        .err false ⟨"pods", p.name, .limitedToKind L "pods" c.namespaceName⟩ h ∧
      admitHandler a ⟨false, [c]⟩ [namespaceAdmissionFunc] h =
        .rejected [] ⟨"pods", p.name, .limitedToKind L "pods" c.namespaceName⟩ h) ∧
    (A.value < L.value →
      namespaceAdmissionFunc a c (admitSnapshot c) h =
        .ok true (h.writeCell rb "Pods" (NewQuantity (A.value + 1))) ∧
      ((h.writeCell rb "Pods" (NewQuantity (A.value + 1))).readRef
          ((projectGroups (admitSnapshot c).status.allocated).rules
            ResourceControllerGroupByNamespace ResourceControllerRuleTypeMax)).getq "Pods" =
        some (NewQuantity (A.value + 1)) ∧
      admitHandler a ⟨false, [c]⟩ [namespaceAdmissionFunc] h =
        .admitted [admitSnapshot c] (h.writeCell rb "Pods" (NewQuantity (A.value + 1)))) := by
  have hfn := namespaceAdmissionFunc_pods_count a p c h ra rb L A hop hkind hobj
    hallow halloc hL hA hnoCPU hnoMem hrb hlen
  have hsnap : (projectGroups (admitSnapshot c).status.allocated).rules
      ResourceControllerGroupByNamespace ResourceControllerRuleTypeMax = some rb := by
    rw [admitSnapshot_allocated_rules c _ _ (by decide) hlen]
    exact halloc
  refine ⟨fun hge => ?_, fun hlt => ?_⟩
  · have hfn2 : namespaceAdmissionFunc a c (admitSnapshot c) h =
        .err false ⟨"pods", p.name, .limitedToKind L "pods" c.namespaceName⟩ h := by
      rw [hfn, if_pos hge]
    refine ⟨hfn2, ?_⟩
    rw [admitHandler]
    rw [if_neg (by simp)]
    simp only [admitLoop, runAdmissionFuncs]
    rw [hfn2]
  · have hlt2 : ¬ A.value ≥ L.value := not_le.mpr hlt
    have hfn2 : namespaceAdmissionFunc a c (admitSnapshot c) h =
        .ok true (h.writeCell rb "Pods" (NewQuantity (A.value + 1))) := by
      rw [hfn, if_neg hlt2]
    refine ⟨hfn2, ?_, ?_⟩
    · rw [hsnap]
      show ((h.writeCell rb "Pods" (NewQuantity (A.value + 1))).getD rb []).getq "Pods" = _
      rw [writeCell_getD_self _ _ _ _ hrb, getq_setq_self]
    · rw [admitHandler]
      rw [if_neg (by simp)]
      simp only [admitLoop, runAdmissionFuncs]
      rw [hfn2]
      simp [admitLoop]

/-- Concrete inputs exercising the namespace pod-count cap: limit 3 in
cell 0 (allowed), allocation 2 in cell 1. -/
def c1Attr : Attributes := ⟨"CREATE", "pods", "ns", some (.pod ⟨"p", []⟩)⟩

def c1Controller : ResourceController :=
  ⟨"quota", "ns", "7", [],
    ⟨some [⟨"Namespace", "Max", some 0⟩], some [⟨"Namespace", "Max", some 1⟩]⟩⟩

def c1Heap : Heap := [[("Pods", NewQuantity 3)], [("Pods", NewQuantity 2)]]

/-- Witness for C1 at the concrete under-limit scenario. -/
theorem C1_namespace_pod_count_witness :
    ((NewQuantity 2).value ≥ (NewQuantity 3).value →
      namespaceAdmissionFunc c1Attr c1Controller (admitSnapshot c1Controller) c1Heap =
        .err false ⟨"pods", "p", .limitedToKind (NewQuantity 3) "pods" c1Controller.namespaceName⟩ c1Heap ∧
      admitHandler c1Attr ⟨false, [c1Controller]⟩ [namespaceAdmissionFunc] c1Heap =
        .rejected [] ⟨"pods", "p", .limitedToKind (NewQuantity 3) "pods" c1Controller.namespaceName⟩ c1Heap) ∧
    ((NewQuantity 2).value < (NewQuantity 3).value →
      namespaceAdmissionFunc c1Attr c1Controller (admitSnapshot c1Controller) c1Heap =
        .ok true (c1Heap.writeCell 1 "Pods" (NewQuantity ((NewQuantity 2).value + 1))) ∧
      ((c1Heap.writeCell 1 "Pods" (NewQuantity ((NewQuantity 2).value + 1))).readRef
          ((projectGroups (admitSnapshot c1Controller).status.allocated).rules
            ResourceControllerGroupByNamespace ResourceControllerRuleTypeMax)).getq "Pods" =
        some (NewQuantity ((NewQuantity 2).value + 1)) ∧
      admitHandler c1Attr ⟨false, [c1Controller]⟩ [namespaceAdmissionFunc] c1Heap =
        .admitted [admitSnapshot c1Controller]
          (c1Heap.writeCell 1 "Pods" (NewQuantity ((NewQuantity 2).value + 1)))) :=
  C1_namespace_pod_count c1Attr ⟨"p", []⟩ c1Controller c1Heap 0 1 (NewQuantity 3) (NewQuantity 2)
    rfl rfl rfl rfl rfl rfl rfl rfl rfl (by decide) (by decide)

/-! ### C6: waiting-for-observation -/

/-- C6: on CREATE of a processed kind, when the controller's status has an
allowed `(Namespace, Max)` entry for the relevant resource but no
corresponding allocated entry yet, the namespace admission function fails
with the distinguished transient waiting-for-observation forbidden error
rather than admitting or rejecting on the limit: first conjunct, the
object-count resource of the inbound kind; second conjunct, the CPU
aggregate for pods (with no count limit declared, so the count block
passes through); third conjunct, the Memory aggregate for pods (with no
count or CPU limit declared, so both earlier blocks pass through). -/
theorem C6_waiting_for_observation (a : Attributes) (p : Pod) (c : ResourceController)
    (obs : ResourceObservation) (h : Heap) (ra : Ref) (limit cpuLimit memLimit : Quantity)
    (hop : a.operation = "CREATE")
    (hallow : (projectGroups c.status.allowed).rules ResourceControllerGroupByNamespace
      ResourceControllerRuleTypeMax = some ra) :
    ((kindsToProcess a.kind = true) →
     ((h.getD ra []).getq (kindToMaxKindResourceName a.kind) = some limit) →
     ((h.readRef ((projectGroups c.status.allocated).rules ResourceControllerGroupByNamespace
        ResourceControllerRuleTypeMax)).getq (kindToMaxKindResourceName a.kind) = none) →
      namespaceAdmissionFunc a c obs h =
        .err false ⟨a.kind, objectName a.object, .waitingForObservation⟩ h) ∧
    (a.kind = "pods" → a.object = some (.pod p) →
     ((h.getD ra []).getq "Pods" = none) →
     ((h.getD ra []).getq "CPU" = some cpuLimit) →
     ((h.readRef ((projectGroups c.status.allocated).rules ResourceControllerGroupByNamespace
        ResourceControllerRuleTypeMax)).getq "CPU" = none) →
      namespaceAdmissionFunc a c obs h =
        .err false ⟨"pods", p.name, .waitingForObservation⟩ h) ∧
    (a.kind = "pods" → a.object = some (.pod p) →
     ((h.getD ra []).getq "Pods" = none) →
     ((h.getD ra []).getq "CPU" = none) →
     ((h.getD ra []).getq "Memory" = some memLimit) →
     ((h.readRef ((projectGroups c.status.allocated).rules ResourceControllerGroupByNamespace
        ResourceControllerRuleTypeMax)).getq "Memory" = none) →
      namespaceAdmissionFunc a c obs h =
        .err false ⟨"pods", p.name, .waitingForObservation⟩ h) := by
  have hhas := rules_some_hasGroupBy c.status.allowed _ _ _ hallow
  refine ⟨?_, ?_, ?_⟩
  · intro hproc hL hAnone
    rw [namespaceAdmissionFunc]
    simp only [hop]
    rw [if_neg (by decide)]
    rw [if_neg (by simp [hproc])]
    simp only [AllowedAndAllocated]
    rw [if_neg (by simp [hhas]), if_neg (by simp [hhas])]
    simp only [if_true, hallow]
    simp only [Heap.readRef] at hAnone
    simp only [namespaceCountStep, Heap.readRef, hL, hAnone]
  · intro hkind hobj hPodsNone hCPU hCPUAllocNone
    rw [namespaceAdmissionFunc]
    simp only [hop, hkind, hobj]
    rw [if_neg (by decide)]
    rw [if_neg (by simp [kindsToProcess])]
    simp only [AllowedAndAllocated]
    rw [if_neg (by simp [hhas]), if_neg (by simp [hhas])]
    simp only [if_true, hallow]
    simp only [namespaceCountStep, hkind, kindToMaxKindResourceName, if_true, Heap.readRef,
      hPodsNone]
    simp only [namespacePodsBlock, Heap.readRef, hCPU, hobj, Option.isSome_some, Bool.true_or,
      if_true]
    simp only [Heap.readRef] at hCPUAllocNone
    simp only [namespaceCPUStep, hkind, Heap.readRef, hCPUAllocNone, objectName]
  · intro hkind hobj hPodsNone hCPUNone hMem hMemAllocNone
    rw [namespaceAdmissionFunc]
    simp only [hop, hkind, hobj]
    rw [if_neg (by decide)]
    rw [if_neg (by simp [kindsToProcess])]
    simp only [AllowedAndAllocated]
    rw [if_neg (by simp [hhas]), if_neg (by simp [hhas])]
    simp only [if_true, hallow]
    simp only [namespaceCountStep, hkind, kindToMaxKindResourceName, if_true, Heap.readRef,
      hPodsNone]
    simp only [Heap.readRef] at hMemAllocNone
    simp only [namespacePodsBlock, Heap.readRef, hCPUNone, hMem, hobj, Option.isSome_none,
      Option.isSome_some, Bool.false_or, if_true]
    simp only [namespaceMemoryStep, hkind, Heap.readRef, hMemAllocNone, objectName]

/-- Concrete inputs for the C6 witness: a controller whose allowed map is
heap cell 0 and whose allocated map is the empty cell 1. -/
def c6Controller : ResourceController :=
  ⟨"quota", "ns", "7", [],
    ⟨some [⟨"Namespace", "Max", some 0⟩], some [⟨"Namespace", "Max", some 1⟩]⟩⟩

/-- A services count limit with no allocated entry yet. -/
def c6CountHeap : Heap := [[("Services", NewQuantity 5)], []]

/-- A namespace CPU maximum with no allocated entry yet. -/
def c6Heap : Heap := [[("CPU", NewMilliQuantity 100)], []]

/-- A namespace Memory maximum with no allocated entry yet. -/
def c6MemHeap : Heap := [[("Memory", NewQuantity 100)], []]

/-- Witness for C6: the count path (CREATE services against an unobserved
Services limit), the CPU path and the Memory path each yield the
distinguished waiting-for-observation error at their concrete inputs. -/
theorem C6_waiting_for_observation_witness :
    namespaceAdmissionFunc ⟨"CREATE", "services", "ns", some (.service ⟨"s"⟩)⟩ c6Controller
        ⟨"q", "ns", "7", ⟨none, none⟩⟩ c6CountHeap =
      .err false ⟨"services", objectName (some (.service ⟨"s"⟩)), .waitingForObservation⟩
        c6CountHeap ∧
    namespaceAdmissionFunc ⟨"CREATE", "pods", "ns", some (.pod ⟨"p", []⟩)⟩ c6Controller
        ⟨"q", "ns", "7", ⟨none, none⟩⟩ c6Heap =
      .err false ⟨"pods", Pod.name ⟨"p", []⟩, .waitingForObservation⟩ c6Heap ∧
    namespaceAdmissionFunc ⟨"CREATE", "pods", "ns", some (.pod ⟨"p", []⟩)⟩ c6Controller
        ⟨"q", "ns", "7", ⟨none, none⟩⟩ c6MemHeap =
      .err false ⟨"pods", Pod.name ⟨"p", []⟩, .waitingForObservation⟩ c6MemHeap :=
  ⟨(C6_waiting_for_observation ⟨"CREATE", "services", "ns", some (.service ⟨"s"⟩)⟩ ⟨"p", []⟩
      c6Controller ⟨"q", "ns", "7", ⟨none, none⟩⟩ c6CountHeap 0 (NewQuantity 5) zeroQuantity
      zeroQuantity rfl rfl).1 rfl (by decide) (by decide),
   (C6_waiting_for_observation ⟨"CREATE", "pods", "ns", some (.pod ⟨"p", []⟩)⟩ ⟨"p", []⟩
      c6Controller ⟨"q", "ns", "7", ⟨none, none⟩⟩ c6Heap 0 zeroQuantity (NewMilliQuantity 100)
      zeroQuantity rfl rfl).2.1 rfl rfl (by decide) (by decide) (by decide),
   (C6_waiting_for_observation ⟨"CREATE", "pods", "ns", some (.pod ⟨"p", []⟩)⟩ ⟨"p", []⟩
      c6Controller ⟨"q", "ns", "7", ⟨none, none⟩⟩ c6MemHeap 0 zeroQuantity zeroQuantity
      (NewQuantity 100) rfl rfl).2.2 rfl rfl (by decide) (by decide) (by decide) (by decide)⟩

/-! ### C10: only the namespace-scope function reports dirty -/

theorem podFunc_cases (a : Attributes) (input : ResourceController)
    (obs : ResourceObservation) (h : Heap) :
    podAdmissionFunc a input obs h = .ok false h ∨
    (∃ e, podAdmissionFunc a input obs h = .err false e h) ∨
    podAdmissionFunc a input obs h = .crash h := by
  rw [podAdmissionFunc]
  dsimp only
  repeat' split
  all_goals first
    | exact Or.inl rfl
    | exact Or.inr (Or.inr rfl)
    | exact Or.inr (Or.inl ⟨_, rfl⟩)

theorem containerFunc_cases (a : Attributes) (input : ResourceController)
    (obs : ResourceObservation) (h : Heap) :
    containerAdmissionFunc a input obs h = .ok false h ∨
    (∃ e, containerAdmissionFunc a input obs h = .err false e h) ∨
    containerAdmissionFunc a input obs h = .crash h := by
  rw [containerAdmissionFunc]
  dsimp only
  repeat' split
  all_goals first
    | exact Or.inl rfl
    | exact Or.inr (Or.inr rfl)
    | exact Or.inr (Or.inl ⟨_, rfl⟩)

theorem replicationControllerFunc_cases (a : Attributes) (input : ResourceController)
    (obs : ResourceObservation) (h : Heap) :
    replicationControllerAdmissionFunc a input obs h = .ok false h ∨
    (∃ e, replicationControllerAdmissionFunc a input obs h = .err false e h) ∨
    replicationControllerAdmissionFunc a input obs h = .crash h := by
  rw [replicationControllerAdmissionFunc]
  dsimp only
  repeat' split
  all_goals first
    | exact Or.inl rfl
    | exact Or.inr (Or.inr rfl)
    | exact Or.inr (Or.inl ⟨_, rfl⟩)

theorem runFuncs_nonNamespace (a : Attributes) (input : ResourceController)
    (obs : ResourceObservation) :
    ∀ (funcs : List AdmissionFunc),
      (∀ f ∈ funcs, f = podAdmissionFunc ∨ f = containerAdmissionFunc ∨
        f = replicationControllerAdmissionFunc) →
      ∀ (h : Heap) (d : Bool),
        runAdmissionFuncs funcs a input obs h d = .ok d h ∨
        (∃ e, runAdmissionFuncs funcs a input obs h d = .err false e h) ∨
        runAdmissionFuncs funcs a input obs h d = .crash h := by
  intro funcs
  induction funcs with
  | nil => intro _ h d; exact Or.inl rfl
  | cons f fs ih =>
    intro hmem h d
    have hf := hmem f (List.mem_cons_self _ _)
    have hfcases : f a input obs h = .ok false h ∨
        (∃ e, f a input obs h = .err false e h) ∨ f a input obs h = .crash h := by
      rcases hf with hf | hf | hf <;> subst hf
      · exact podFunc_cases a input obs h
      · exact containerFunc_cases a input obs h
      · exact replicationControllerFunc_cases a input obs h
    have hrest := ih (fun g hg => hmem g (List.mem_cons_of_mem _ hg)) h d
    rcases hfcases with hok | ⟨e, herr⟩ | hcrash
    · rw [runAdmissionFuncs, hok]
      simpa using hrest
    · rw [runAdmissionFuncs, herr]
      exact Or.inr (Or.inl ⟨e, rfl⟩)
    · rw [runAdmissionFuncs, hcrash]
      exact Or.inr (Or.inr rfl)

theorem runFuncs_dirty_needs_namespace (a : Attributes) (input : ResourceController)
    (obs : ResourceObservation) :
    ∀ (funcs : List AdmissionFunc),
      (∀ f ∈ funcs, f = namespaceAdmissionFunc ∨ f = podAdmissionFunc ∨
        f = containerAdmissionFunc ∨ f = replicationControllerAdmissionFunc) →
      ∀ (h : Heap) (d : Bool) (h' : Heap),
        runAdmissionFuncs funcs a input obs h d = .ok true h' →
        d = true ∨ namespaceAdmissionFunc ∈ funcs := by
  intro funcs
  induction funcs with
  | nil =>
    intro _ h d h' hrun
    rw [runAdmissionFuncs] at hrun
    cases hrun
    exact Or.inl rfl
  | cons f fs ih =>
    intro hmem h d h' hrun
    rcases hmem f (List.mem_cons_self _ _) with hns | hf
    · exact Or.inr (hns ▸ List.mem_cons_self _ _)
    · have hfcases : f a input obs h = .ok false h ∨
          (∃ e, f a input obs h = .err false e h) ∨ f a input obs h = .crash h := by
        rcases hf with hf | hf | hf <;> subst hf
        · exact podFunc_cases a input obs h
        · exact containerFunc_cases a input obs h
        · exact replicationControllerFunc_cases a input obs h
      rw [runAdmissionFuncs] at hrun
      rcases hfcases with hok | ⟨e, herr⟩ | hcrash
      · rw [hok] at hrun
        simp only [Bool.or_false] at hrun
        rcases ih (fun g hg => hmem g (List.mem_cons_of_mem _ hg)) h d h' hrun with hd | hmem2
        · exact Or.inl hd
        · exact Or.inr (List.mem_cons_of_mem _ hmem2)
      · rw [herr] at hrun; cases hrun
      · rw [hcrash] at hrun; cases hrun

theorem admitLoop_nonNamespace (a : Attributes) (funcs : List AdmissionFunc)
    (hmem : ∀ f ∈ funcs, f = podAdmissionFunc ∨ f = containerAdmissionFunc ∨
      f = replicationControllerAdmissionFunc) :
    ∀ (controllers : List ResourceController) (h : Heap) (em : List ResourceObservation),
      admitLoop a funcs controllers h em = .admitted em h ∨
      (∃ e, admitLoop a funcs controllers h em = .rejected em e h) ∨
      admitLoop a funcs controllers h em = .crashed em h := by
  intro controllers
  induction controllers with
  | nil => intro h em; exact Or.inl rfl
  | cons c rest ih =>
    intro h em
    rcases runFuncs_nonNamespace a c (admitSnapshot c) funcs hmem h false with
      hok | ⟨e, herr⟩ | hcrash
    · rw [admitLoop, hok]
      simpa using ih h em
    · rw [admitLoop, herr]
      exact Or.inr (Or.inl ⟨e, rfl⟩)
    · rw [admitLoop, hcrash]
      exact Or.inr (Or.inr rfl)

/-- C10: the pod-scope, container-scope and replication-controller-scope
admission functions return dirty = false on every path; consequently an
aggregate dirty run of registered functions requires the namespace-scope
function to be among them, and an `Admit` call whose function list holds
only the three non-namespace functions emits no observation for any
controller. -/
theorem C10_only_namespace_dirty :
    (∀ (a : Attributes) (input : ResourceController) (obs : ResourceObservation) (h : Heap),
      (podAdmissionFunc a input obs h).dirtyFlag = false) ∧
    (∀ (a : Attributes) (input : ResourceController) (obs : ResourceObservation) (h : Heap),
      (containerAdmissionFunc a input obs h).dirtyFlag = false) ∧
    (∀ (a : Attributes) (input : ResourceController) (obs : ResourceObservation) (h : Heap),
      (replicationControllerAdmissionFunc a input obs h).dirtyFlag = false) ∧
    (∀ (funcs : List AdmissionFunc) (a : Attributes) (input : ResourceController)
      (obs : ResourceObservation) (h h' : Heap),
      (∀ f ∈ funcs, f = namespaceAdmissionFunc ∨ f = podAdmissionFunc ∨
        f = containerAdmissionFunc ∨ f = replicationControllerAdmissionFunc) →
      runAdmissionFuncs funcs a input obs h false = .ok true h' →
      namespaceAdmissionFunc ∈ funcs) ∧
    (∀ (a : Attributes) (funcs : List AdmissionFunc)
      (controllers : List ResourceController) (h : Heap),
      (∀ f ∈ funcs, f = podAdmissionFunc ∨ f = containerAdmissionFunc ∨
        f = replicationControllerAdmissionFunc) →
      admitHandler a ⟨false, controllers⟩ funcs h = .admitted [] h ∨
      (∃ e, admitHandler a ⟨false, controllers⟩ funcs h = .rejected [] e h) ∨
      admitHandler a ⟨false, controllers⟩ funcs h = .crashed [] h) := by
  refine ⟨?_, ?_, ?_, ?_, ?_⟩
  · intro a input obs h
    rcases podFunc_cases a input obs h with hc | ⟨e, hc⟩ | hc <;> rw [hc] <;> rfl
  · intro a input obs h
    rcases containerFunc_cases a input obs h with hc | ⟨e, hc⟩ | hc <;> rw [hc] <;> rfl
  · intro a input obs h
    rcases replicationControllerFunc_cases a input obs h with hc | ⟨e, hc⟩ | hc <;> rw [hc] <;> rfl
  · intro funcs a input obs h h' hmem hrun
    rcases runFuncs_dirty_needs_namespace a input obs funcs hmem h false h' hrun with hd | hm
    · cases hd
    · exact hm
  · intro a funcs controllers h hmem
    rw [admitHandler, if_neg (by simp)]
    exact admitLoop_nonNamespace a funcs hmem controllers h []

/-- Witness for C10: a concrete non-dirty pod-scope call, and a concrete
dirty run whose function list contains the namespace function. -/
theorem C10_only_namespace_dirty_witness :
    (podAdmissionFunc ⟨"CREATE", "pods", "ns", none⟩ ⟨"q", "ns", "1", [], ⟨none, none⟩⟩
      ⟨"q", "ns", "1", ⟨none, none⟩⟩ []).dirtyFlag = false ∧
    namespaceAdmissionFunc ∈ ([namespaceAdmissionFunc, podAdmissionFunc] : List AdmissionFunc) :=
  ⟨C10_only_namespace_dirty.1 ⟨"CREATE", "pods", "ns", none⟩ ⟨"q", "ns", "1", [], ⟨none, none⟩⟩
      ⟨"q", "ns", "1", ⟨none, none⟩⟩ [],
   C10_only_namespace_dirty.2.2.2.1 [namespaceAdmissionFunc, podAdmissionFunc] c1Attr
     c1Controller (admitSnapshot c1Controller) c1Heap
     [[("Pods", NewQuantity 3)], [("Pods", NewQuantity 3)]]
     (by
       intro f hf
       rcases List.mem_cons.mp hf with hf1 | hf1
       · exact Or.inl hf1
       · rcases List.mem_cons.mp hf1 with hf2 | hf2
         · exact Or.inr (Or.inl hf2)
         · cases hf2)
     (by decide)⟩

/-! ### C9: admission-function invocation order -/

theorem registerAdmissionFuncSeq_result {α : Type} :
    ∀ (regs acc plugins : List (String × α)),
      (acc.map Prod.fst).Nodup →
      registerAdmissionFuncSeq regs acc = some plugins →
      plugins = acc ++ regs ∧ (plugins.map Prod.fst).Nodup := by
  intro regs
  induction regs with
  | nil =>
    intro acc plugins hnd hreg
    rw [registerAdmissionFuncSeq] at hreg
    cases hreg
    exact ⟨by simp, hnd⟩
  | cons nf rest ih =>
    intro acc plugins hnd hreg
    rw [registerAdmissionFuncSeq, registerAdmissionFunc] at hreg
    by_cases hdup : acc.any (fun p => p.1 = nf.1) = true
    · rw [if_pos hdup] at hreg; cases hreg
    · rw [if_neg hdup] at hreg
      have hnotin : nf.1 ∉ acc.map Prod.fst := by
        intro hmem
        rcases List.mem_map.mp hmem with ⟨p, hp, hp1⟩
        exact hdup (List.any_eq_true.mpr ⟨p, hp, by simp [hp1]⟩)
      have hnd2 : ((acc ++ [nf]).map Prod.fst).Nodup := by
        simpa [List.map_append] using List.Nodup.append hnd (by simp)
          (by simpa [List.disjoint_singleton] using hnotin)
      rcases ih (acc ++ [nf]) plugins hnd2 hreg with ⟨heq, hnd3⟩
      refine ⟨?_, hnd3⟩
      rw [heq, List.append_assoc]
      rfl

theorem keys_filterMap_lookup {α : Type} :
    ∀ (plugins : List (String × α)),
      ((plugins.map Prod.fst).Nodup) →
      (plugins.map Prod.fst).filterMap (pluginsLookup plugins) = plugins.map Prod.snd := by
  intro plugins
  induction plugins with
  | nil => intro _; rfl
  | cons nf rest ih =>
    intro hnd
    rw [List.map_cons] at hnd
    have hcons := List.nodup_cons.mp hnd
    have hnotin : nf.1 ∉ rest.map Prod.fst := hcons.1
    have hndrest : (rest.map Prod.fst).Nodup := hcons.2
    simp only [List.map_cons, List.filterMap_cons]
    have hhead : pluginsLookup (nf :: rest) nf.1 = some nf.2 := by
      simp [pluginsLookup, List.find?]
    rw [hhead]
    have hcongr : (rest.map Prod.fst).filterMap (pluginsLookup (nf :: rest)) =
        (rest.map Prod.fst).filterMap (pluginsLookup rest) := by
      apply List.filterMap_congr
      intro k hk
      have hkne : ¬ nf.1 = k := by
        intro hap
        exact hnotin (hap ▸ hk)
      simp [pluginsLookup, List.find?, hkne]
    rw [hcongr, ih hndrest]

/-- C9 (amended): `GetAdmissionFuncs` ranges over the plugins map, whose
iteration order Go leaves unspecified; for every valid iteration order (a
permutation of the registered names) the returned list is exactly the
registered functions — a permutation of registration order — though not
necessarily in registration order. -/
theorem C9_registration_order_perm {α : Type} (regs plugins : List (String × α))
    (order : List String)
    (hreg : registerAdmissionFuncSeq regs [] = some plugins)
    (horder : order.Perm (plugins.map Prod.fst)) :
    plugins = regs ∧ (getAdmissionFuncs plugins order).Perm (regs.map Prod.snd) := by
  rcases registerAdmissionFuncSeq_result regs [] plugins (by simp) hreg with ⟨heq, hnd⟩
  simp only [List.nil_append] at heq
  refine ⟨heq, ?_⟩
  rw [heq] at hnd horder ⊢
  have hperm : (order.filterMap (pluginsLookup regs)).Perm
      ((regs.map Prod.fst).filterMap (pluginsLookup regs)) := horder.filterMap _
  rw [keys_filterMap_lookup regs hnd] at hperm
  exact hperm

/-- Counterexample to C9 as stated: after registering "A" then "B", the
iteration order `["B", "A"]` is a valid permutation of the map's keys, and
`GetAdmissionFuncs` then returns the functions in the reverse of
registration order. -/
theorem C9_registration_order_counterexample :
    registerAdmissionFuncSeq [("A", (0 : Nat)), ("B", 1)] [] = some [("A", 0), ("B", 1)] ∧
    (["B", "A"] : List String).Perm ([("A", (0 : Nat)), ("B", 1)].map Prod.fst) ∧
    getAdmissionFuncs [("A", (0 : Nat)), ("B", 1)] ["B", "A"] = [1, 0] ∧
    ([1, 0] : List Nat) ≠ [("A", (0 : Nat)), ("B", 1)].map Prod.snd := by
  refine ⟨rfl, ?_, rfl, by decide⟩
  exact List.Perm.swap "A" "B" []

/-- Witness for the amended C9 at a concrete two-function registry. -/
theorem C9_registration_order_perm_witness :
    ([("A", (0 : Nat)), ("B", 1)] = [("A", 0), ("B", 1)]) ∧
    (getAdmissionFuncs [("A", (0 : Nat)), ("B", 1)] ["B", "A"]).Perm
      ([("A", (0 : Nat)), ("B", 1)].map Prod.snd) :=
  C9_registration_order_perm [("A", (0 : Nat)), ("B", 1)] [("A", 0), ("B", 1)] ["B", "A"]
    rfl (List.Perm.swap "A" "B" [])

/-! ### C5: Min-evaluator seeding -/

theorem ite_lt_eq_min (v w : Int) : (if w < v then w else v) = min v w := by
  rcases le_total v w with hle | hle
  · rw [if_neg (not_lt.mpr hle), min_eq_left hle]
  · rcases lt_or_eq_of_le hle with hlt | heq
    · rw [if_pos hlt, min_eq_right hle]
    · subst heq; simp

theorem pminPods_pos (g : Pod → Int) :
    ∀ (l : List Pod) (i : Nat) (v : Int), i ≠ 0 →
      pminPods g i v l = (l.map g).foldl min v := by
  intro l
  induction l with
  | nil => intro i v _; rfl
  | cons p rest ih =>
    intro i v hi
    rw [pminPods]
    have hcond : (if i = 0 ∨ g p < v then g p else v) = min v (g p) := by
      rw [← ite_lt_eq_min]
      simp [hi]
    rw [hcond, List.map_cons, List.foldl_cons]
    exact ih (i + 1) (min v (g p)) (by omega)

theorem pminPods_eq_listMin (g : Pod → Int) (l : List Pod) :
    pminPods g 0 0 l = listMinInt (l.map g) := by
  cases l with
  | nil => rfl
  | cons p rest =>
    rw [pminPods]
    have hcond : (if (0 : Nat) = 0 ∨ g p < 0 then g p else 0) = g p := by simp
    rw [hcond, pminPods_pos g rest 1 (g p) (by omega)]
    rfl

theorem cminContainers_pos (f : Container → Int) :
    ∀ (cs : List Container) (i j : Nat) (v : Int), ¬ (i = 0 ∧ j = 0) →
      cminContainers f i j v cs = (cs.map f).foldl min v := by
  intro cs
  induction cs with
  | nil => intro i j v _; rfl
  | cons c rest ih =>
    intro i j v hij
    rw [cminContainers]
    have hcond : (if f c < v ∨ (i = 0 ∧ j = 0) then f c else v) = min v (f c) := by
      rw [← ite_lt_eq_min]
      simp [hij]
    rw [hcond, List.map_cons, List.foldl_cons]
    exact ih i (j + 1) (min v (f c)) (by omega)

theorem allContainers_cons (p : Pod) (rest : List Pod) :
    allContainers (p :: rest) = p.containers ++ allContainers rest := by
  simp [allContainers]

theorem cminPods_pos (f : Container → Int) :
    ∀ (pods : List Pod) (i : Nat) (v : Int), i ≠ 0 →
      cminPods f i v pods = ((allContainers pods).map f).foldl min v := by
  intro pods
  induction pods with
  | nil => intro i v _; rfl
  | cons p rest ih =>
    intro i v hi
    rw [cminPods, cminContainers_pos f p.containers i 0 v (by omega),
      ih (i + 1) _ (by omega), allContainers_cons, List.map_append, List.foldl_append]

theorem cminPods_eq_listMin (f : Container → Int) (p : Pod) (rest : List Pod)
    (hne : p.containers ≠ []) :
    cminPods f 0 0 (p :: rest) = listMinInt ((allContainers (p :: rest)).map f) := by
  rcases hcs : p.containers with _ | ⟨c0, cs⟩
  · exact absurd hcs hne
  · rw [cminPods, hcs, cminContainers]
    have hcond : (if f c0 < 0 ∨ ((0 : Nat) = 0 ∧ (0 : Nat) = 0) then f c0 else 0) = f c0 := by
      simp
    rw [hcond, cminContainers_pos f cs 0 1 (f c0) (by omega),
      cminPods_pos f rest 1 _ (by omega), allContainers_cons, hcs]
    rw [List.cons_append, List.map_cons, listMinInt, List.map_append, List.foldl_append]

/-- C5 (amended): the pod-scope Min evaluators seed with the first pod and
compute the true minimum over all pods (0 when the listing is empty, since
`listMinInt [] = 0`); every Min evaluator returns 0 on an empty listing;
and the container-scope Min evaluators compute the true minimum over all
containers provided the first pod in the listing has at least one
container — their seed condition `i == 0 && j == 0` fires only for the
first container of the first pod. -/
theorem C5_min_seeding (snap : Cluster) (ns : String) :
    (snap.podsIn ns = [] →
      containerMinCPUObserver snap ns = .ok (NewMilliQuantity 0) ∧
      containerMinMemoryObserver snap ns = .ok (NewQuantity 0) ∧
      podMinCPUObserver snap ns = .ok (NewMilliQuantity 0) ∧
      podMinMemoryObserver snap ns = .ok (NewQuantity 0)) ∧
    (podMinCPUObserver snap ns =
        .ok (NewMilliQuantity (listMinInt ((snap.podsIn ns).map podCPUSumMilli))) ∧
     podMinMemoryObserver snap ns =
        .ok (NewQuantity (listMinInt ((snap.podsIn ns).map podMemorySum)))) ∧
    (∀ p rest, snap.podsIn ns = p :: rest → p.containers ≠ [] →
      containerMinCPUObserver snap ns =
        .ok (NewMilliQuantity (listMinInt ((allContainers (snap.podsIn ns)).map
          (fun c => c.cpu.milliValue)))) ∧
      containerMinMemoryObserver snap ns =
        .ok (NewQuantity (listMinInt ((allContainers (snap.podsIn ns)).map
          (fun c => c.memory.value))))) := by
  refine ⟨?_, ⟨?_, ?_⟩, ?_⟩
  · intro hempty
    refine ⟨?_, ?_, ?_, ?_⟩ <;>
      simp [containerMinCPUObserver, containerMinMemoryObserver, podMinCPUObserver,
        podMinMemoryObserver, hempty, cminPods, pminPods]
  · rw [podMinCPUObserver, pminPods_eq_listMin]
  · rw [podMinMemoryObserver, pminPods_eq_listMin]
  · intro p rest hpods hne
    constructor
    · rw [containerMinCPUObserver, hpods, cminPods_eq_listMin _ _ _ hne]
    · rw [containerMinMemoryObserver, hpods, cminPods_eq_listMin _ _ _ hne]

/-- A pod listing whose first pod has no containers. -/
def c5Snap : Cluster :=
  ⟨fun _ => [⟨"a", []⟩, ⟨"b", [⟨"c1", ⟨5⟩, ⟨5⟩⟩]⟩], fun _ => [], fun _ => []⟩

/-- Counterexample to C5 as stated: with the first pod empty, the
container-scope Min CPU evaluator is never seeded and returns 0, not the
true minimum (5 milli) over the encountered containers. -/
theorem C5_min_seeding_counterexample :
    containerMinCPUObserver c5Snap "ns" = .ok (NewMilliQuantity 0) ∧
    NewMilliQuantity (listMinInt ((allContainers (c5Snap.podsIn "ns")).map
      (fun c => c.cpu.milliValue))) = NewMilliQuantity 5 ∧
    (NewMilliQuantity 0 : Quantity) ≠ NewMilliQuantity 5 :=
  ⟨rfl, rfl, by decide⟩

/-- A pod listing whose first pod does have a container. -/
def c5SeededSnap : Cluster :=
  ⟨fun _ => [⟨"a", [⟨"c0", ⟨7⟩, ⟨9⟩⟩]⟩, ⟨"b", [⟨"c1", ⟨5⟩, ⟨5⟩⟩]⟩], fun _ => [], fun _ => []⟩

/-- Witness for the amended C5 at a concrete listing with a seeded first
container. -/
theorem C5_min_seeding_witness :
    podMinCPUObserver c5SeededSnap "ns" =
      .ok (NewMilliQuantity (listMinInt ((c5SeededSnap.podsIn "ns").map podCPUSumMilli))) ∧
    containerMinCPUObserver c5SeededSnap "ns" =
      .ok (NewMilliQuantity (listMinInt ((allContainers (c5SeededSnap.podsIn "ns")).map
        (fun c => c.cpu.milliValue)))) :=
  ⟨(C5_min_seeding c5SeededSnap "ns").2.1.1,
   ((C5_min_seeding c5SeededSnap "ns").2.2 ⟨"a", [⟨"c0", ⟨7⟩, ⟨9⟩⟩]⟩
     [⟨"b", [⟨"c1", ⟨5⟩, ⟨5⟩⟩]⟩] rfl (by decide)).1⟩

/-! ### C4: frame property of the admission snapshot -/

/-- C4 (amended): the observation snapshot copies the controller's
`Status.Allowed` in full (same group structs, same map references) and
allocates `Status.Allocated` with `len(Status.Allowed)` entries — the
controller's allocated entries are element-copied only up to that length
(shorter lists are padded with zero groups, longer ones truncated), so the
allocated length equals `len(Status.Allowed)`, not necessarily
`len(Status.Allocated)`; and a `makeObservation` projection writes through
the shared map reference: it rewrites exactly the referenced heap cell,
leaving every other cell unchanged, so the same write is visible through
the controller's own allocated group, which aliases that cell. -/
theorem C4_snapshot_frame (c : ResourceController) (h : Heap)
    (st : ResourceControllerStatus) (rn : ResourceName) (q : Quantity) (h' : Heap) (rb : Ref)
    (hrules : (projectGroups st.allocated).rules ResourceControllerGroupByNamespace
      ResourceControllerRuleTypeMax = some rb)
    (hmk : makeObservation h st rn q = some h') :
    ((admitSnapshot c).status.allowed = some (c.status.allowed.getD [])) ∧
    (((admitSnapshot c).status.allocated.getD []).length = (c.status.allowed.getD []).length) ∧
    (∀ i, i < (c.status.allowed.getD []).length → i < (c.status.allocated.getD []).length →
      ((admitSnapshot c).status.allocated.getD []).get? i =
        (c.status.allocated.getD []).get? i) ∧
    h' = h.writeCell rb rn q ∧
    h'.length = h.length ∧
    (∀ j, j ≠ rb → h'.getD j [] = h.getD j []) ∧
    (rb < h.length → (h'.getD rb []).getq rn = some q) := by
  have hmk2 : h' = h.writeCell rb rn q := by
    rw [makeObservation] at hmk
    simp only [AllowedAndAllocated, hrules, Heap.writeRef, Option.some_inj] at hmk
    exact hmk.symm
  refine ⟨rfl, ?_, ?_, hmk2, ?_, ?_, ?_⟩
  · simp only [admitSnapshot, Option.getD_some, List.length_append, List.length_take,
      List.length_replicate]
    omega
  · intro i hin hisrc
    simp only [admitSnapshot, Option.getD_some]
    rw [List.get?_append (by rw [List.length_take]; omega)]
    exact List.get?_take hin
  · rw [hmk2, writeCell_length]
  · intro j hj
    rw [hmk2, writeCell_getD_ne _ _ _ _ _ hj]
  · intro hi
    rw [hmk2, writeCell_getD_self _ _ _ _ hi, getq_setq_self]

/-- A controller whose allocated list is longer than its allowed list, and
whose allocated `(Namespace, Max)` map lives in heap cell 1. -/
def c4Controller : ResourceController :=
  ⟨"quota", "ns", "7", [],
    ⟨some [⟨"Namespace", "Max", some 0⟩],
     some [⟨"Namespace", "Max", some 1⟩, ⟨"Pod", "Max", some 2⟩]⟩⟩

def c4Heap : Heap := [[("Pods", NewQuantity 3)], [("Pods", NewQuantity 2)], []]

/-- Counterexample to C4 as stated: the snapshot's allocated slice has
length `len(Status.Allowed)` = 1, not the controller's allocated length 2;
and projecting a new quantity into the snapshot rewrites the controller's
own allocated `(Namespace, Max, Pods)` entry from 2 to 3, because the map
is shared by reference. -/
theorem C4_snapshot_frame_counterexample :
    ((admitSnapshot c4Controller).status.allocated.getD []).length = 1 ∧
    (c4Controller.status.allocated.getD []).length = 2 ∧
    (1 : Nat) ≠ 2 ∧
    makeObservation c4Heap (admitSnapshot c4Controller).status "Pods" (NewQuantity 3) =
      some [[("Pods", NewQuantity 3)], [("Pods", NewQuantity 3)], []] ∧
    (c4Heap.readRef ((projectGroups c4Controller.status.allocated).rules
      ResourceControllerGroupByNamespace ResourceControllerRuleTypeMax)).getq "Pods" =
      some (NewQuantity 2) ∧
    (Heap.readRef [[("Pods", NewQuantity 3)], [("Pods", NewQuantity 3)], []]
      ((projectGroups c4Controller.status.allocated).rules
        ResourceControllerGroupByNamespace ResourceControllerRuleTypeMax)).getq "Pods" =
      some (NewQuantity 3) ∧
    (NewQuantity 2 : Quantity) ≠ NewQuantity 3 := by
  decide

/-- Witness for the amended C4 at the concrete controller and heap. -/
theorem C4_snapshot_frame_witness :
    ((admitSnapshot c4Controller).status.allowed =
      some (c4Controller.status.allowed.getD [])) ∧
    (((admitSnapshot c4Controller).status.allocated.getD []).length =
      (c4Controller.status.allowed.getD []).length) ∧
    ((admitSnapshot c4Controller).status.allocated.getD []).get? 0 =
      (c4Controller.status.allocated.getD []).get? 0 ∧
    ([[("Pods", NewQuantity 3)], [("Pods", NewQuantity 3)], []] : Heap) =
      c4Heap.writeCell 1 "Pods" (NewQuantity 3) ∧
    (([[("Pods", NewQuantity 3)], [("Pods", NewQuantity 3)], []] : Heap).getD 0 []) =
      c4Heap.getD 0 [] ∧
    (([[("Pods", NewQuantity 3)], [("Pods", NewQuantity 3)], []] : Heap).getD 1 []).getq "Pods" =
      some (NewQuantity 3) := by
  have t := C4_snapshot_frame c4Controller c4Heap (admitSnapshot c4Controller).status "Pods"
    (NewQuantity 3) [[("Pods", NewQuantity 3)], [("Pods", NewQuantity 3)], []] 1
    (by decide) (by decide)
  exact ⟨t.1, t.2.1, t.2.2.1 0 (by decide) (by decide), t.2.2.2.1, t.2.2.2.2.2.1 0 (by decide),
    t.2.2.2.2.2.2 (by decide)⟩

/-! ### C2 and C3: reconciler observation coverage and dirty detection -/

theorem syncNames_heap (lookupF : String → Option ObserverFunc) (snap : Cluster)
    (ns : String) (prevProj : GroupProjection) (g : ResourceControllerGroup) (fresh : Ref) :
    ∀ (entries : List (ResourceName × Quantity)) (h : Heap) (dirty : Bool)
      (h' : Heap) (d' : Bool),
      syncNames lookupF snap ns prevProj g fresh entries h dirty = .ok (h', d') →
      h'.length = h.length ∧ (∀ j, j ≠ fresh → h'.getD j [] = h.getD j []) := by
  intro entries
  induction entries with
  | nil =>
    intro h dirty h' d' hrun
    rw [syncNames] at hrun
    cases hrun
    exact ⟨rfl, fun _ _ => rfl⟩
  | cons nq rest ih =>
    intro h dirty h' d' hrun
    rw [syncNames] at hrun
    rcases hlk : lookupF (observerFuncKey g.groupBy g.ruleType nq.1) with _ | observe
    · rw [hlk] at hrun
      exact ih h dirty h' d' hrun
    · rw [hlk] at hrun
      dsimp only at hrun
      rcases hob : observe snap ns with e | q
      · rw [hob] at hrun; cases hrun
      · rw [hob] at hrun
        dsimp only at hrun
        rcases ih _ _ _ _ hrun with ⟨hlen, hstable⟩
        refine ⟨by rw [hlen, writeCell_length], fun j hj => ?_⟩
        rw [hstable j hj, writeCell_getD_ne _ _ _ _ _ hj]

theorem syncNames_cell_mono (lookupF : String → Option ObserverFunc) (snap : Cluster)
    (ns : String) (prevProj : GroupProjection) (g : ResourceControllerGroup) (fresh : Ref) :
    ∀ (entries : List (ResourceName × Quantity)) (h : Heap) (dirty : Bool)
      (h' : Heap) (d' : Bool) (m : ResourceName),
      fresh < h.length →
      syncNames lookupF snap ns prevProj g fresh entries h dirty = .ok (h', d') →
      (h.getD fresh []).getq m ≠ none →
      (h'.getD fresh []).getq m ≠ none := by
  intro entries
  induction entries with
  | nil =>
    intro h dirty h' d' m _ hrun hm
    rw [syncNames] at hrun
    cases hrun
    exact hm
  | cons nq rest ih =>
    intro h dirty h' d' m hfresh hrun hm
    rw [syncNames] at hrun
    rcases hlk : lookupF (observerFuncKey g.groupBy g.ruleType nq.1) with _ | observe
    · rw [hlk] at hrun
      exact ih h dirty h' d' m hfresh hrun hm
    · rw [hlk] at hrun
      dsimp only at hrun
      rcases hob : observe snap ns with e | q
      · rw [hob] at hrun; cases hrun
      · rw [hob] at hrun
        dsimp only at hrun
        refine ih _ _ _ _ m (by rw [writeCell_length]; exact hfresh) hrun ?_
        rw [writeCell_getD_self _ _ _ _ hfresh]
        exact key_mem_setq_mono _ _ _ _ hm

theorem syncNames_covers (lookupF : String → Option ObserverFunc) (snap : Cluster)
    (ns : String) (prevProj : GroupProjection) (g : ResourceControllerGroup) (fresh : Ref) :
    ∀ (entries : List (ResourceName × Quantity)) (h : Heap) (dirty : Bool)
      (h' : Heap) (d' : Bool),
      fresh < h.length →
      syncNames lookupF snap ns prevProj g fresh entries h dirty = .ok (h', d') →
      ∀ nq ∈ entries, lookupF (observerFuncKey g.groupBy g.ruleType nq.1) ≠ none →
        (h'.getD fresh []).getq nq.1 ≠ none := by
  intro entries
  induction entries with
  | nil =>
    intro h dirty h' d' _ _ nq hmem
    cases hmem
  | cons nq0 rest ih =>
    intro h dirty h' d' hfresh hrun nq hmem hreg
    rw [syncNames] at hrun
    rcases hlk : lookupF (observerFuncKey g.groupBy g.ruleType nq0.1) with _ | observe
    · rw [hlk] at hrun
      rcases List.mem_cons.mp hmem with heq | hmem2
      · subst heq
        exact absurd hlk hreg
      · exact ih h dirty h' d' hfresh hrun nq hmem2 hreg
    · rw [hlk] at hrun
      dsimp only at hrun
      rcases hob : observe snap ns with e | q
      · rw [hob] at hrun; cases hrun
      · rw [hob] at hrun
        dsimp only at hrun
        have hfresh1 : fresh < (h.writeCell fresh nq0.1 q).length := by
          rw [writeCell_length]; exact hfresh
        rcases List.mem_cons.mp hmem with heq | hmem2
        · subst heq
          refine syncNames_cell_mono lookupF snap ns prevProj g fresh rest _ _ _ _ _
            hfresh1 hrun ?_
          rw [writeCell_getD_self _ _ _ _ hfresh]
          simp [getq_setq_self]
        · exact ih _ _ _ _ hfresh1 hrun nq hmem2 hreg

theorem readRef_writeCell_ne (h : Heap) (fresh : Ref) (n : ResourceName) (q : Quantity)
    (r : Option Ref) (hr : r ≠ some fresh) :
    Heap.readRef (h.writeCell fresh n q) r = Heap.readRef h r := by
  cases r with
  | none => rfl
  | some rr =>
    have : rr ≠ fresh := fun he => hr (by rw [he])
    exact writeCell_getD_ne _ _ _ _ _ this

theorem syncNames_dirty (lookupF : String → Option ObserverFunc) (snap : Cluster)
    (ns : String) (prevProj : GroupProjection) (g : ResourceControllerGroup) (fresh : Ref) :
    ∀ (entries : List (ResourceName × Quantity)) (h : Heap) (dirty : Bool)
      (h' : Heap) (d' : Bool),
      prevProj.rules g.groupBy g.ruleType ≠ some fresh →
      syncNames lookupF snap ns prevProj g fresh entries h dirty = .ok (h', d') →
      d' = (dirty || entries.any (fun nq =>
        match lookupF (observerFuncKey g.groupBy g.ruleType nq.1) with
        | none => false
        | some observe =>
          match observe snap ns with
          | .error _ => false
          | .ok q =>
            q.value !=
              (((Heap.readRef h (prevProj.rules g.groupBy g.ruleType)).getq nq.1).getD
                zeroQuantity).value)) := by
  intro entries
  induction entries with
  | nil =>
    intro h dirty h' d' _ hrun
    rw [syncNames] at hrun
    cases hrun
    simp
  | cons nq rest ih =>
    intro h dirty h' d' hpr hrun
    rw [syncNames] at hrun
    rw [List.any_cons]
    rcases hlk : lookupF (observerFuncKey g.groupBy g.ruleType nq.1) with _ | observe
    · rw [hlk] at hrun
      rw [ih h dirty h' d' hpr hrun]
      simp [hlk]
    · rw [hlk] at hrun
      dsimp only at hrun
      rcases hob : observe snap ns with e | q
      · rw [hob] at hrun; cases hrun
      · rw [hob] at hrun
        dsimp only at hrun
        have hstable : Heap.readRef (h.writeCell fresh nq.1 q)
            (prevProj.rules g.groupBy g.ruleType) =
            Heap.readRef h (prevProj.rules g.groupBy g.ruleType) :=
          readRef_writeCell_ne h fresh nq.1 q _ hpr
        rw [hstable] at hrun
        have hd := ih _ _ _ _ hpr hrun
        rw [hstable] at hd
        rw [hd]
        simp only [hlk, hob, Bool.or_assoc]

theorem getD_append_lt (h t : Heap) (j : Nat) (hj : j < h.length) :
    (h ++ t).getD j [] = h.getD j [] := by
  simp only [List.getD]
  rw [List.get?_append hj]

theorem syncGroups_heap (lookupF : String → Option ObserverFunc) (snap : Cluster)
    (ns : String) (prevProj : GroupProjection) :
    ∀ (gs : List ResourceControllerGroup) (h : Heap) (d : Bool)
      (le : List ResourceControllerGroup) (h' : Heap) (d' : Bool),
      syncGroups lookupF snap ns prevProj gs h d = .ok (le, h', d') →
      h.length ≤ h'.length ∧ ∀ j, j < h.length → h'.getD j [] = h.getD j [] := by
  intro gs
  induction gs with
  | nil =>
    intro h d le h' d' hrun
    rw [syncGroups] at hrun
    cases hrun
    exact ⟨le_refl _, fun _ _ => rfl⟩
  | cons g rest ih =>
    intro h d le h' d' hrun
    rw [syncGroups] at hrun
    rcases hn : syncNames lookupF snap ns prevProj g h.length (Heap.readRef h g.resources)
        (h ++ [[]]) d with e | ⟨h1, d1⟩
    · rw [hn] at hrun; cases hrun
    · rw [hn] at hrun
      dsimp only at hrun
      rcases hg : syncGroups lookupF snap ns prevProj rest h1 d1 with e | ⟨gs', h2, d2⟩
      · rw [hg] at hrun; cases hrun
      · rw [hg] at hrun
        dsimp only at hrun
        cases hrun
        rcases syncNames_heap lookupF snap ns prevProj g h.length _ _ _ _ _ hn with
          ⟨hlen1, hstable1⟩
        rcases ih h1 d1 _ _ _ hg with ⟨hlen2, hstable2⟩
        have hlen0 : (h ++ [[]]).length = h.length + 1 := by simp
        constructor
        · omega
        · intro j hj
          have hjf : j ≠ h.length := by omega
          rw [hstable2 j (by omega), hstable1 j hjf, getD_append_lt h [[]] j hj]

theorem refBelow_some_iff (r : Ref) (n : Nat) : refBelow (some r) n = true ↔ r < n := by
  simp [refBelow]

theorem groupRefsBelow_mono (gs : List ResourceControllerGroup) (m n : Nat) (hmn : m ≤ n)
    (hb : groupRefsBelow gs m = true) : groupRefsBelow gs n = true := by
  simp only [groupRefsBelow, List.all_eq_true] at hb ⊢
  intro g hg
  have hgm := hb g hg
  rcases hr : g.resources with _ | r
  · simp [refBelow]
  · rw [hr] at hgm
    rw [refBelow_some_iff] at hgm ⊢
    exact lt_of_lt_of_le hgm hmn

theorem groupRefsBelow_bound (gs : List ResourceControllerGroup) (n : Nat)
    (hb : groupRefsBelow gs n = true) (g : ResourceControllerGroup) (hg : g ∈ gs) :
    ∀ rr, g.resources = some rr → rr < n := by
  intro rr hrr
  simp only [groupRefsBelow, List.all_eq_true] at hb
  have hgm := hb g hg
  rw [hrr, refBelow_some_iff] at hgm
  exact hgm

theorem readRef_stable_of_lt (hA hB : Heap) (r : Option Ref) (n : Nat)
    (hr : ∀ rr, r = some rr → rr < n)
    (hagree : ∀ j, j < n → hB.getD j [] = hA.getD j []) :
    Heap.readRef hB r = Heap.readRef hA r := by
  cases r with
  | none => rfl
  | some rr => exact hagree rr (hr rr rfl)

theorem any_congr_mem {α : Type} (l : List α) (p q : α → Bool)
    (hpq : ∀ a ∈ l, p a = q a) : l.any p = l.any q := by
  induction l with
  | nil => rfl
  | cons a rest ih =>
    rw [List.any_cons, List.any_cons, hpq a (by simp),
      ih (fun b hb => hpq b (by simp [hb]))]

theorem groupDirtyFormula_stable (lookupF : String → Option ObserverFunc) (snap : Cluster)
    (ns : String) (prevProj : GroupProjection) (hA hB : Heap)
    (g : ResourceControllerGroup) (n : Nat)
    (hres : ∀ rr, g.resources = some rr → rr < n)
    (hpr : ∀ rr, prevProj.rules g.groupBy g.ruleType = some rr → rr < n)
    (hagree : ∀ j, j < n → hB.getD j [] = hA.getD j []) :
    groupDirtyFormula lookupF snap ns prevProj hB g =
      groupDirtyFormula lookupF snap ns prevProj hA g := by
  unfold groupDirtyFormula
  rw [readRef_stable_of_lt hA hB g.resources n hres hagree,
    readRef_stable_of_lt hA hB _ n hpr hagree]

theorem syncGroups_covers (lookupF : String → Option ObserverFunc) (snap : Cluster)
    (ns : String) (prevProj : GroupProjection) :
    ∀ (gs : List ResourceControllerGroup) (h : Heap) (d : Bool)
      (le : List ResourceControllerGroup) (h' : Heap) (d' : Bool),
      groupRefsBelow gs h.length = true →
      syncGroups lookupF snap ns prevProj gs h d = .ok (le, h', d') →
      le.length = gs.length ∧
      ∀ i g, gs.get? i = some g →
        ∃ r, le.get? i = some ⟨g.groupBy, g.ruleType, some r⟩ ∧
          ∀ nq ∈ Heap.readRef h g.resources,
            lookupF (observerFuncKey g.groupBy g.ruleType nq.1) ≠ none →
            (h'.getD r []).getq nq.1 ≠ none := by
  intro gs
  induction gs with
  | nil =>
    intro h d le h' d' _ hrun
    rw [syncGroups] at hrun
    cases hrun
    exact ⟨rfl, fun i g hig => by cases hig⟩
  | cons g rest ih =>
    intro h d le h' d' hwf hrun
    have hwfrest : groupRefsBelow rest h.length = true := by
      simp only [groupRefsBelow, List.all_cons, Bool.and_eq_true] at hwf
      exact hwf.2
    rw [syncGroups] at hrun
    rcases hn : syncNames lookupF snap ns prevProj g h.length (Heap.readRef h g.resources)
        (h ++ [[]]) d with e | ⟨h1, d1⟩
    · rw [hn] at hrun; cases hrun
    · rw [hn] at hrun
      dsimp only at hrun
      rcases hg : syncGroups lookupF snap ns prevProj rest h1 d1 with e | ⟨gs2, h2, d2⟩
      · rw [hg] at hrun; cases hrun
      · rw [hg] at hrun
        dsimp only at hrun
        simp only [Except.ok.injEq, Prod.mk.injEq] at hrun
        obtain ⟨hle, hh, hd⟩ := hrun
        subst hle
        subst hh
        subst hd
        rcases syncNames_heap lookupF snap ns prevProj g h.length _ _ _ _ _ hn with
          ⟨hlen1, hstable1⟩
        rcases syncGroups_heap lookupF snap ns prevProj rest h1 d1 _ _ _ hg with
          ⟨hlen2, hstable2⟩
        have hlen1a : h1.length = h.length + 1 := by
          rw [hlen1]; simp
        have hagree1 : ∀ j, j < h.length → h1.getD j [] = h.getD j [] := by
          intro j hj
          rw [hstable1 j (Nat.ne_of_lt hj), getD_append_lt h [[]] j hj]
        rcases ih h1 d1 gs2 h2 d2
            (groupRefsBelow_mono rest h.length h1.length (by omega) hwfrest) hg with
          ⟨hlenr, hcov⟩
        refine ⟨by simp [hlenr], ?_⟩
        intro i gq hig
        cases i with
        | zero =>
          rw [List.get?_cons_zero, Option.some_inj] at hig
          subst hig
          refine ⟨h.length, rfl, ?_⟩
          intro nq hmem hreg
          have hcell1 : (h1.getD h.length []).getq nq.1 ≠ none :=
            syncNames_covers lookupF snap ns prevProj _ h.length _ _ _ _ _
              (by simp) hn nq hmem hreg
          have hkeep : h2.getD h.length [] = h1.getD h.length [] :=
            hstable2 h.length (by omega)
          rw [hkeep]
          exact hcell1
        | succ i2 =>
          rw [List.get?_cons_succ] at hig
          rcases hcov i2 gq hig with ⟨r, hle2, hcont⟩
          refine ⟨r, by rw [List.get?_cons_succ]; exact hle2, ?_⟩
          have hgmem : gq ∈ rest := by
            rcases List.get?_eq_some.mp hig with ⟨hlt, hget⟩
            rw [← hget]
            exact List.get_mem rest _ _
          have hqres : ∀ rr, gq.resources = some rr → rr < h.length :=
            groupRefsBelow_bound rest h.length hwfrest gq hgmem
          have hread : Heap.readRef h1 gq.resources = Heap.readRef h gq.resources :=
            readRef_stable_of_lt h h1 gq.resources h.length hqres hagree1
          rw [hread] at hcont
          exact hcont

theorem syncGroups_dirty (lookupF : String → Option ObserverFunc) (snap : Cluster)
    (ns : String) (prevProj : GroupProjection) :
    ∀ (gs : List ResourceControllerGroup) (h : Heap) (d : Bool)
      (le : List ResourceControllerGroup) (h' : Heap) (d' : Bool),
      groupRefsBelow gs h.length = true →
      (∀ gb rt rr, prevProj.rules gb rt = some rr → rr < h.length) →
      syncGroups lookupF snap ns prevProj gs h d = .ok (le, h', d') →
      d' = (d || gs.any (groupDirtyFormula lookupF snap ns prevProj h)) := by
  intro gs
  induction gs with
  | nil =>
    intro h d le h' d' _ _ hrun
    rw [syncGroups] at hrun
    cases hrun
    simp
  | cons g rest ih =>
    intro h d le h' d' hwf hprev hrun
    have hwfrest : groupRefsBelow rest h.length = true := by
      simp only [groupRefsBelow, List.all_cons, Bool.and_eq_true] at hwf
      exact hwf.2
    have hres : ∀ rr, g.resources = some rr → rr < h.length := by
      intro rr hrr
      simp only [groupRefsBelow, List.all_cons, Bool.and_eq_true] at hwf
      have := hwf.1
      rw [hrr, refBelow_some_iff] at this
      exact this
    rw [syncGroups] at hrun
    rcases hn : syncNames lookupF snap ns prevProj g h.length (Heap.readRef h g.resources)
        (h ++ [[]]) d with e | ⟨h1, d1⟩
    · rw [hn] at hrun; cases hrun
    · rw [hn] at hrun
      dsimp only at hrun
      rcases hg : syncGroups lookupF snap ns prevProj rest h1 d1 with e | ⟨gs2, h2, d2⟩
      · rw [hg] at hrun; cases hrun
      · rw [hg] at hrun
        dsimp only at hrun
        simp only [Except.ok.injEq, Prod.mk.injEq] at hrun
        obtain ⟨hle, hh, hd⟩ := hrun
        subst hle
        subst hh
        subst hd
        rcases syncNames_heap lookupF snap ns prevProj g h.length _ _ _ _ _ hn with
          ⟨hlen1, hstable1⟩
        have hlen1a : h1.length = h.length + 1 := by
          rw [hlen1]; simp
        have hagree1 : ∀ j, j < h.length → h1.getD j [] = h.getD j [] := by
          intro j hj
          rw [hstable1 j (Nat.ne_of_lt hj), getD_append_lt h [[]] j hj]
        have hagree0 : ∀ j, j < h.length → (h ++ [[]]).getD j [] = h.getD j [] := by
          intro j hj
          exact getD_append_lt h [[]] j hj
        -- head contribution via syncNames_dirty
        have hprne : prevProj.rules g.groupBy g.ruleType ≠ some h.length := by
          intro hcontra
          exact absurd (hprev _ _ _ hcontra) (Nat.lt_irrefl _)
        have hd1 := syncNames_dirty lookupF snap ns prevProj g h.length _ _ _ _ _ hprne hn
        have hprevread : Heap.readRef (h ++ [[]]) (prevProj.rules g.groupBy g.ruleType) =
            Heap.readRef h (prevProj.rules g.groupBy g.ruleType) :=
          readRef_stable_of_lt h (h ++ [[]]) _ h.length (hprev g.groupBy g.ruleType) hagree0
        rw [hprevread] at hd1
        have hd1' : d1 = (d || groupDirtyFormula lookupF snap ns prevProj h g) := hd1
        -- rest contribution via ih over the grown heap, transported back to h
        have hd2 := ih h1 d1 gs2 h2 d2
          (groupRefsBelow_mono rest h.length h1.length (by omega) hwfrest)
          (fun gb rt rr hrr =>
            lt_of_lt_of_le (hprev gb rt rr hrr)
              (by rw [hlen1a]; exact Nat.le_succ _)) hg
        have hbacks : rest.any (groupDirtyFormula lookupF snap ns prevProj h1) =
            rest.any (groupDirtyFormula lookupF snap ns prevProj h) := by
          refine any_congr_mem rest _ _ ?_
          intro g2 hg2
          exact groupDirtyFormula_stable lookupF snap ns prevProj h h1 g2 h.length
            (groupRefsBelow_bound rest h.length hwfrest g2 hg2)
            (hprev g2.groupBy g2.ruleType) hagree1
        rw [hbacks] at hd2
        rw [hd2, hd1', List.any_cons, Bool.or_assoc]

theorem foldl_rules_resources (gb rt : String) (r : Ref) :
    ∀ (l : List ResourceControllerGroup) (acc : Option Ref),
      l.foldl (fun acc g => if g.groupBy = gb && g.ruleType = rt then g.resources else acc)
        acc = some r →
      (∃ g ∈ l, g.resources = some r) ∨ acc = some r := by
  intro l
  induction l with
  | nil => intro acc hacc; exact Or.inr hacc
  | cons g rest ih =>
    intro acc hacc
    rw [List.foldl_cons] at hacc
    rcases ih _ hacc with ⟨g2, hg2, hgr⟩ | hstep
    · exact Or.inl ⟨g2, List.mem_cons_of_mem _ hg2, hgr⟩
    · by_cases hcond : (g.groupBy = gb && g.ruleType = rt) = true
      · rw [if_pos hcond] at hstep
        exact Or.inl ⟨g, List.mem_cons_self _ _, hstep⟩
      · rw [if_neg hcond] at hstep
        exact Or.inr hstep

theorem rules_ref_bound (gs : Option (List ResourceControllerGroup)) (gb rt : String) (n : Nat)
    (hb : groupRefsBelow (gs.getD []) n = true) :
    ∀ rr, (projectGroups gs).rules gb rt = some rr → rr < n := by
  intro rr hrr
  rcases foldl_rules_resources gb rt rr (gs.getD []) none hrr with ⟨g, hg, hgr⟩ | habs
  · exact groupRefsBelow_bound _ n hb g hg rr hgr
  · cases habs

/-- C2 (amended): once `syncResourceController` completes for a controller
(its group loop returns without error), the built observation's
`Status.Allocated` has one group per `Spec.Allowed` group, with the same
scope and rule type, and it contains an allocated entry for every resource
name of the group **for which an observer function is registered**
(unregistered names are skipped by the sync loop and get no entry). -/
theorem C2_allocated_covers_allowed (lookupF : String → Option ObserverFunc)
    (snap : Cluster) (c : ResourceController) (h : Heap)
    (le : List ResourceControllerGroup) (h' : Heap) (d' : Bool)
    (hwf : groupRefsBelow c.specAllowed h.length = true)
    (hrun : syncGroups lookupF snap c.namespaceName (AllowedAndAllocated c.status).2
      c.specAllowed h (c.status.allowed.isNone || c.status.allocated.isNone) =
      .ok (le, h', d')) :
    syncResourceController lookupF snap c h =
      .ok ((if d' then
        some ⟨c.name, c.namespaceName, c.resourceVersion, ⟨some c.specAllowed, some le⟩⟩
       else none), h') ∧
    le.length = c.specAllowed.length ∧
    (∀ i g, c.specAllowed.get? i = some g →
      ∃ r, le.get? i = some ⟨g.groupBy, g.ruleType, some r⟩ ∧
        ∀ nq ∈ Heap.readRef h g.resources,
          lookupF (observerFuncKey g.groupBy g.ruleType nq.1) ≠ none →
          (h'.getD r []).getq nq.1 ≠ none) := by
  have hcov := syncGroups_covers lookupF snap c.namespaceName
    (AllowedAndAllocated c.status).2 c.specAllowed h _ le h' d' hwf hrun
  refine ⟨?_, hcov.1, hcov.2⟩
  rw [syncResourceController]
  rw [hrun]

/-- C3 (amended): the reconciler's dirty flag is exactly the
integer-value comparison formula for every resource, CPU included: dirty
iff the status was never observed or some registered rule key's freshly
evaluated quantity differs from the previously allocated one **in the
integer value projection** (`Value()`), not the milli-value projection —
so a CPU change of one milli unit is detected only when it changes the
integer value. -/
theorem C3_dirty_integer_value (lookupF : String → Option ObserverFunc)
    (snap : Cluster) (c : ResourceController) (h : Heap)
    (le : List ResourceControllerGroup) (h' : Heap) (d' : Bool)
    (hwf : groupRefsBelow c.specAllowed h.length = true)
    (hwfprev : groupRefsBelow (c.status.allocated.getD []) h.length = true)
    (hrun : syncGroups lookupF snap c.namespaceName (AllowedAndAllocated c.status).2
      c.specAllowed h (c.status.allowed.isNone || c.status.allocated.isNone) =
      .ok (le, h', d')) :
    syncResourceController lookupF snap c h =
      .ok ((if d' then
        some ⟨c.name, c.namespaceName, c.resourceVersion, ⟨some c.specAllowed, some le⟩⟩
       else none), h') ∧
    d' = syncDirtyFormula lookupF snap c h := by
  constructor
  · rw [syncResourceController]
    rw [hrun]
  · have hprev : ∀ gb rt rr,
        ((AllowedAndAllocated c.status).2).rules gb rt = some rr → rr < h.length := by
      intro gb rt rr hrr
      exact rules_ref_bound c.status.allocated gb rt h.length hwfprev rr hrr
    have hd := syncGroups_dirty lookupF snap c.namespaceName
      (AllowedAndAllocated c.status).2 c.specAllowed h _ le h' d' hwf hprev hrun
    rw [hd, syncDirtyFormula]

/-- A cluster whose only pod carries 1501 milli-CPU. -/
def c3Snap : Cluster :=
  ⟨fun _ => [⟨"p1", [⟨"c", ⟨1501⟩, ⟨0⟩⟩]⟩], fun _ => [], fun _ => []⟩

/-- A controller with a namespace Max CPU rule, previously allocated at
1500 milli (cell 1); the allowed map lives in cell 0. -/
def c3Controller : ResourceController :=
  ⟨"q", "ns", "1", [⟨"Namespace", "Max", some 0⟩],
    ⟨some [⟨"Namespace", "Max", some 0⟩], some [⟨"Namespace", "Max", some 1⟩]⟩⟩

def c3Heap : Heap := [[("CPU", NewMilliQuantity 2000)], [("CPU", NewMilliQuantity 1500)]]

/-- Counterexample to C3 as stated: the freshly observed CPU (1501 milli)
differs from the previous allocation (1500 milli) by exactly one milli
unit, yet the reconciler emits no observation, because line 146 compares
`Value()` (integral units: both round to 2), not `MilliValue()`. -/
theorem C3_milli_counterexample :
    namespaceMaxCPUObserver c3Snap "ns" = .ok (NewMilliQuantity 1501) ∧
    (c3Heap.getD 1 []).getq "CPU" = some (NewMilliQuantity 1500) ∧
    (NewMilliQuantity 1501).milliValue - (NewMilliQuantity 1500).milliValue = 1 ∧
    (NewMilliQuantity 1501).value = (NewMilliQuantity 1500).value ∧
    syncResourceController builtinObserverFuncs c3Snap c3Controller c3Heap =
      .ok (none, [[("CPU", NewMilliQuantity 2000)], [("CPU", NewMilliQuantity 1500)],
        [("CPU", NewMilliQuantity 1501)]]) :=
  ⟨rfl, by decide, by decide, by decide, rfl⟩

/-- Witness for the amended C3 at the concrete one-milli-change sync. -/
theorem C3_dirty_integer_value_witness :
    syncResourceController builtinObserverFuncs c3Snap c3Controller c3Heap =
      .ok ((if false then
        some ⟨c3Controller.name, c3Controller.namespaceName, c3Controller.resourceVersion,
          ⟨some c3Controller.specAllowed, some [⟨"Namespace", "Max", some 2⟩]⟩⟩
       else none),
       [[("CPU", NewMilliQuantity 2000)], [("CPU", NewMilliQuantity 1500)],
        [("CPU", NewMilliQuantity 1501)]]) ∧
    false = syncDirtyFormula builtinObserverFuncs c3Snap c3Controller c3Heap :=
  C3_dirty_integer_value builtinObserverFuncs c3Snap c3Controller c3Heap
    [⟨"Namespace", "Max", some 2⟩]
    [[("CPU", NewMilliQuantity 2000)], [("CPU", NewMilliQuantity 1500)],
      [("CPU", NewMilliQuantity 1501)]] false
    (by decide) (by decide) rfl

/-- A cluster with no objects at all. -/
def c2Snap : Cluster := ⟨fun _ => [], fun _ => [], fun _ => []⟩

/-- A controller whose `Spec.Allowed` lists the rule key
`(Namespace, Max, Foo)`, for which no observer function is registered. -/
def c2Controller : ResourceController :=
  ⟨"q", "ns", "1", [⟨"Namespace", "Max", some 0⟩], ⟨none, none⟩⟩

def c2Heap : Heap := [[("Foo", NewQuantity 1)]]

/-- Counterexample to C2 as stated: the rule key `(Namespace, Max, Foo)`
appears in `Spec.Allowed`, the sync completes and emits an observation
(never-observed status), yet the observation's allocated group for that
spec group is empty — "Foo" has no registered observer, so no allocated
entry is produced for it. -/
theorem C2_unregistered_key_counterexample :
    (c2Heap.getD 0 []).getq "Foo" = some (NewQuantity 1) ∧
    c2Controller.specAllowed = [⟨"Namespace", "Max", some 0⟩] ∧
    builtinObserverFuncs (observerFuncKey "Namespace" "Max" "Foo") = none ∧
    syncResourceController builtinObserverFuncs c2Snap c2Controller c2Heap =
      .ok (some ⟨"q", "ns", "1",
        ⟨some [⟨"Namespace", "Max", some 0⟩], some [⟨"Namespace", "Max", some 1⟩]⟩⟩,
        [[("Foo", NewQuantity 1)], []]) ∧
    (([[("Foo", NewQuantity 1)], []] : Heap).getD 1 []).getq "Foo" = none :=
  ⟨by decide, rfl, rfl, rfl, by decide⟩

/-- A controller whose `Spec.Allowed` lists the registered key
`(Namespace, Max, Pods)`. -/
def c2SeenController : ResourceController :=
  ⟨"q", "ns", "1", [⟨"Namespace", "Max", some 0⟩], ⟨none, none⟩⟩

def c2SeenHeap : Heap := [[("Pods", NewQuantity 1)]]

/-- Witness for the amended C2 at a concrete sync of a registered key. -/
theorem C2_allocated_covers_allowed_witness :
    syncResourceController builtinObserverFuncs c2Snap c2SeenController c2SeenHeap =
      .ok ((if true then
        some ⟨c2SeenController.name, c2SeenController.namespaceName,
          c2SeenController.resourceVersion,
          ⟨some c2SeenController.specAllowed, some [⟨"Namespace", "Max", some 1⟩]⟩⟩
       else none), [[("Pods", NewQuantity 1)], [("Pods", NewQuantity 0)]]) ∧
    ([⟨"Namespace", "Max", some 1⟩] : List ResourceControllerGroup).length =
      c2SeenController.specAllowed.length :=
  ⟨(C2_allocated_covers_allowed builtinObserverFuncs c2Snap c2SeenController c2SeenHeap
      [⟨"Namespace", "Max", some 1⟩] [[("Pods", NewQuantity 1)], [("Pods", NewQuantity 0)]]
      true (by decide) rfl).1,
   (C2_allocated_covers_allowed builtinObserverFuncs c2Snap c2SeenController c2SeenHeap
      [⟨"Namespace", "Max", some 1⟩] [[("Pods", NewQuantity 1)], [("Pods", NewQuantity 0)]]
      true (by decide) rfl).2.1⟩
